import Mathlib

/-!
# The statement compiler of `executor/compiler.go`

A shallow embedding of `statementLabel` and `Compiler.Compile`.

* Go interface values and pointers are modelled with their nil cases, because
  the classifier dereferences the node it switches on: a run-time panic is a
  result `Except.error` of the embedding.
* The collaborators that live in other packages (`plan.Preprocess`,
  `plan.Validate`, `plan.Optimize`) are parameters of `Compile`.
* `Compile` threads an explicit `World`: the session, the label-partitioned
  counter and a chronological record of every call that leaves the function.
-/

set_option autoImplicit false

/-- A Go run-time panic. -/
inductive Panic where
  /-- A field read or a method call through a nil pointer or nil interface. -/
  | nilDereference
  deriving DecidableEq, Repr

namespace ast

/-- An `ast.ResultSetNode` interface value, as far as `statementLabel` looks
into it: the dynamic type, and for a table source its `Source`. -/
inductive ResultSetNode where
  /-- The nil interface value. -/
  | nil
  /-- A `*ast.TableName`. -/
  | TableName (Name : String)
  /-- A `*ast.SelectStmt` used as a sub-select. -/
  | SelectStmt (Text : String)
  /-- A `*ast.UnionStmt`. -/
  | UnionStmt (Text : String)
  /-- A non-nil `*ast.TableSource`. -/
  | TableSource (Source : ResultSetNode) (AsName : String)
  /-- The nil pointer of type `*ast.TableSource`. -/
  | nilTableSource
  /-- A `*ast.Join` nested in another join. -/
  | Join (Left Right : ResultSetNode)
  deriving DecidableEq, Repr

/-- The pointee of a `*ast.Join`. -/
structure Join where
  Left : ResultSetNode
  Right : ResultSetNode
  On : Option String
  deriving DecidableEq, Repr

/-- The pointee of a `*ast.TableRefsClause`; `TableRefs` is a `*Join`. -/
structure TableRefsClause where
  TableRefs : Option Join
  deriving DecidableEq, Repr

/-- The pointee of a `*ast.SelectStmt`; `From` is a `*TableRefsClause`. -/
structure SelectStmt where
  From : Option TableRefsClause
  Distinct : Bool
  Fields : List String
  Where : Option String
  GroupBy : List String
  Having : Option String
  OrderBy : List String
  Limit : Option Nat
  text : String
  deriving DecidableEq, Repr

/-- The pointee of a `*ast.InsertStmt`. -/
structure InsertStmt where
  IsReplace : Bool
  Table : Option TableRefsClause
  Columns : List String
  Lists : List (List String)
  OnDuplicate : List String
  Priority : Nat
  text : String
  deriving DecidableEq, Repr

/-- The pointee of a statement node of which the compiler reads the text only. -/
structure Stmt where
  text : String
  deriving DecidableEq, Repr

/-- An `ast.StmtNode` interface value: the nil interface, or a pointer (`none`
is the nil pointer) of one of the statement types.  `other` stands for every
statement type the classifier has no case for. -/
inductive StmtNode where
  | nil
  | AlterTableStmt (x : Option Stmt)
  | AnalyzeTableStmt (x : Option Stmt)
  | BeginStmt (x : Option Stmt)
  | CommitStmt (x : Option Stmt)
  | CreateDatabaseStmt (x : Option Stmt)
  | CreateIndexStmt (x : Option Stmt)
  | CreateTableStmt (x : Option Stmt)
  | CreateUserStmt (x : Option Stmt)
  | DeallocateStmt (x : Option Stmt)
  | DeleteStmt (x : Option Stmt)
  | DoStmt (x : Option Stmt)
  | DropDatabaseStmt (x : Option Stmt)
  | DropIndexStmt (x : Option Stmt)
  | DropTableStmt (x : Option Stmt)
  | DropUserStmt (x : Option Stmt)
  | ExecuteStmt (x : Option Stmt)
  | ExplainStmt (x : Option Stmt)
  | FlushTableStmt (x : Option Stmt)
  | GrantStmt (x : Option Stmt)
  | InsertStmt (x : Option InsertStmt)
  | LoadDataStmt (x : Option Stmt)
  | PrepareStmt (x : Option Stmt)
  | RollbackStmt (x : Option Stmt)
  | SelectStmt (x : Option SelectStmt)
  | SetPwdStmt (x : Option Stmt)
  | ShowStmt (x : Option Stmt)
  | TruncateTableStmt (x : Option Stmt)
  | UpdateStmt (x : Option Stmt)
  | other (typeName : String) (implementsDDLNode : Bool) (x : Option Stmt)
  deriving DecidableEq, Repr

/-- The statement kinds: the dynamic type of a node, nil or not. -/
inductive Kind where
  | AlterTable | AnalyzeTable | Begin | Commit | CreateDatabase | CreateIndex
  | CreateTable | CreateUser | Deallocate | Delete | Do | DropDatabase
  | DropIndex | DropTable | DropUser | Execute | Explain | FlushTable | Grant
  | Insert | LoadData | Prepare | Rollback | Select | SetPwd | Show
  | TruncateTable | Update
  deriving DecidableEq, Repr

/-- The kind of a node whose dynamic type has a case in the classifier's
switch; `none` for the nil interface and for every other type. -/
def StmtNode.kind : StmtNode → Option Kind
  | .nil => none
  | .AlterTableStmt _ => some .AlterTable
  | .AnalyzeTableStmt _ => some .AnalyzeTable
  | .BeginStmt _ => some .Begin
  | .CommitStmt _ => some .Commit
  | .CreateDatabaseStmt _ => some .CreateDatabase
  | .CreateIndexStmt _ => some .CreateIndex
  | .CreateTableStmt _ => some .CreateTable
  | .CreateUserStmt _ => some .CreateUser
  | .DeallocateStmt _ => some .Deallocate
  | .DeleteStmt _ => some .Delete
  | .DoStmt _ => some .Do
  | .DropDatabaseStmt _ => some .DropDatabase
  | .DropIndexStmt _ => some .DropIndex
  | .DropTableStmt _ => some .DropTable
  | .DropUserStmt _ => some .DropUser
  | .ExecuteStmt _ => some .Execute
  | .ExplainStmt _ => some .Explain
  | .FlushTableStmt _ => some .FlushTable
  | .GrantStmt _ => some .Grant
  | .InsertStmt _ => some .Insert
  | .LoadDataStmt _ => some .LoadData
  | .PrepareStmt _ => some .Prepare
  | .RollbackStmt _ => some .Rollback
  | .SelectStmt _ => some .Select
  | .SetPwdStmt _ => some .SetPwd
  | .ShowStmt _ => some .Show
  | .TruncateTableStmt _ => some .TruncateTable
  | .UpdateStmt _ => some .Update
  | .other _ _ _ => none

/-- The type assertion `node.(*ast.UpdateStmt)`: it succeeds on every pointer
of that type, the nil pointer included. -/
def StmtNode.isUpdateStmt : StmtNode → Bool
  | .UpdateStmt _ => true
  | _ => false

/-- Modelled from the spec: the interface `ast.DDLNode` and the statement types
that implement it are declared in package `ast`, outside the sources at hand.
The type assertion `node.(ast.DDLNode)` is a check of the dynamic type only; the
data-definition statements (create, alter, drop, truncate of databases, tables
and indexes) pass it, and a statement type unknown to the classifier carries its
own answer. -/
def StmtNode.isDDLNode : StmtNode → Bool
  | .AlterTableStmt _ => true
  | .CreateDatabaseStmt _ => true
  | .CreateIndexStmt _ => true
  | .CreateTableStmt _ => true
  | .DropDatabaseStmt _ => true
  | .DropIndexStmt _ => true
  | .DropTableStmt _ => true
  | .TruncateTableStmt _ => true
  | .other _ d _ => d
  | _ => false

/-- Modelled from the spec: `Text()` is declared in package `ast`; it returns the
literal source text stored in the node, and is a read through the node pointer,
so it panics on the nil interface and on a nil pointer. -/
def StmtNode.Text : StmtNode → Except Panic String
  | .nil => .error .nilDereference
  | .InsertStmt x => match x with
    | some s => .ok s.text
    | none => .error .nilDereference
  | .SelectStmt x => match x with
    | some s => .ok s.text
    | none => .error .nilDereference
  | .AlterTableStmt x | .AnalyzeTableStmt x | .BeginStmt x | .CommitStmt x
  | .CreateDatabaseStmt x | .CreateIndexStmt x | .CreateTableStmt x
  | .CreateUserStmt x | .DeallocateStmt x | .DeleteStmt x | .DoStmt x
  | .DropDatabaseStmt x | .DropIndexStmt x | .DropTableStmt x | .DropUserStmt x
  | .ExecuteStmt x | .ExplainStmt x | .FlushTableStmt x | .GrantStmt x
  | .LoadDataStmt x | .PrepareStmt x | .RollbackStmt x | .SetPwdStmt x
  | .ShowStmt x | .TruncateTableStmt x | .UpdateStmt x | .other _ _ x =>
    match x with
    | some s => .ok s.text
    | none => .error .nilDereference

/-- The dynamic type of an `ast.StmtNode` interface value: none for the nil
interface, a type with a case in the switch of the classifier, or another type,
known by its name and by whether it implements `ast.DDLNode`. -/
inductive TypeTag where
  | nilInterface
  | known (k : Kind)
  | unknown (typeName : String) (implementsDDLNode : Bool)
  deriving DecidableEq, Repr

/-- The dynamic type of a node; the pointer it holds plays no part. -/
def StmtNode.typeTag : StmtNode → TypeTag
  | .nil => .nilInterface
  | .AlterTableStmt _ => .known .AlterTable
  | .AnalyzeTableStmt _ => .known .AnalyzeTable
  | .BeginStmt _ => .known .Begin
  | .CommitStmt _ => .known .Commit
  | .CreateDatabaseStmt _ => .known .CreateDatabase
  | .CreateIndexStmt _ => .known .CreateIndex
  | .CreateTableStmt _ => .known .CreateTable
  | .CreateUserStmt _ => .known .CreateUser
  | .DeallocateStmt _ => .known .Deallocate
  | .DeleteStmt _ => .known .Delete
  | .DoStmt _ => .known .Do
  | .DropDatabaseStmt _ => .known .DropDatabase
  | .DropIndexStmt _ => .known .DropIndex
  | .DropTableStmt _ => .known .DropTable
  | .DropUserStmt _ => .known .DropUser
  | .ExecuteStmt _ => .known .Execute
  | .ExplainStmt _ => .known .Explain
  | .FlushTableStmt _ => .known .FlushTable
  | .GrantStmt _ => .known .Grant
  | .InsertStmt _ => .known .Insert
  | .LoadDataStmt _ => .known .LoadData
  | .PrepareStmt _ => .known .Prepare
  | .RollbackStmt _ => .known .Rollback
  | .SelectStmt _ => .known .Select
  | .SetPwdStmt _ => .known .SetPwd
  | .ShowStmt _ => .known .Show
  | .TruncateTableStmt _ => .known .TruncateTable
  | .UpdateStmt _ => .known .Update
  | .other typeName d _ => .unknown typeName d

/-- Whether every pointer that the classifier reads through is non-nil: the
node pointer of an Insert or Select node, the table-refs of a FROM clause that
is present, and the left table source when there is no right-hand side.  The
nodes a parser builds are of this form. -/
def StmtNode.pointersReadable : StmtNode → Bool
  | .InsertStmt x => x.isSome
  | .SelectStmt none => false
  | .SelectStmt (some x) =>
    match x.From with
    | none => true
    | some From =>
      match From.TableRefs with
      | none => false
      | some fileds => !(fileds.Right = ResultSetNode.nil && fileds.Left = ResultSetNode.nilTableSource)
  | _ => true

end ast

namespace executor

/-- A read through a pointer: a panic on the nil pointer. -/
def deref {α : Type} : Option α → Except Panic α
  | some a => .ok a
  | none => .error .nilDereference

/-- The inner switches of the Select case (lines 88 to 96), once `fileds` is
read: `true` when they return "Select-Simple", `false` when control falls
through to the line that returns "Select-Complex". -/
def singleTableName (fileds : ast.Join) : Except Panic Bool :=
  if fileds.Right = ast.ResultSetNode.nil then
    match fileds.Left with
    | .TableSource Source _ =>
      match Source with
      | .TableName _ => .ok true
      | _ => .ok false
    | .nilTableSource => .error .nilDereference
    | _ => .ok false
  else .ok false

/-- The function `statementLabel` (lines 32 to 108). -/
def statementLabel (node : ast.StmtNode) : Except Panic String :=
  match node with
  | .AlterTableStmt _ => .ok "AlterTable"
  | .AnalyzeTableStmt _ => .ok "AnalyzeTable"
  | .BeginStmt _ => .ok "Begin"
  | .CommitStmt _ => .ok "Commit"
  | .CreateDatabaseStmt _ => .ok "CreateDatabase"
  | .CreateIndexStmt _ => .ok "CreateIndex"
  | .CreateTableStmt _ => .ok "CreateTable"
  | .CreateUserStmt _ => .ok "CreateUser"
  | .DeallocateStmt _ => .ok "Deallocate"
  | .DeleteStmt _ => .ok "Delete"
  | .DoStmt _ => .ok "Do"
  | .DropDatabaseStmt _ => .ok "DropDatabase"
  | .DropIndexStmt _ => .ok "DropIndex"
  | .DropTableStmt _ => .ok "DropTable"
  | .DropUserStmt _ => .ok "DropUser"
  | .ExecuteStmt _ => .ok "Execute"
  | .ExplainStmt _ => .ok "Explain"
  | .FlushTableStmt _ => .ok "FlushTable"
  | .GrantStmt _ => .ok "Grant"
  | .InsertStmt x =>
    match deref x with
    | .error p => .error p
    | .ok x => if x.IsReplace then .ok "Replace" else .ok "Insert"
  | .LoadDataStmt _ => .ok "LoadData"
  | .PrepareStmt _ => .ok "Prepare"
  | .RollbackStmt _ => .ok "Rollback"
  | .SelectStmt x =>
    match deref x with
    | .error p => .error p
    | .ok x =>
      match x.From with
      | none => .ok "Select-Simple"
      | some From =>
        match deref From.TableRefs with
        | .error p => .error p
        | .ok fileds =>
          match singleTableName fileds with
          | .error p => .error p
          | .ok true => .ok "Select-Simple"
          | .ok false => .ok "Select-Complex"
  | .SetPwdStmt _ => .ok "SetPwd"
  | .ShowStmt _ => .ok "Show"
  | .TruncateTableStmt _ => .ok "TruncateTable"
  | .UpdateStmt _ => .ok "Update"
  | _ => .ok "unknown"

/-- An `infoschema.InfoSchema`: one versioned view of the metadata.  Two
snapshots may carry the same version and still be different objects. -/
structure InfoSchema where
  id : Nat
  version : Int
  deriving DecidableEq, Repr

/-- The method `SchemaMetaVersion` of `infoschema.InfoSchema`. -/
def InfoSchema.SchemaMetaVersion (is : InfoSchema) : Int := is.version

/-- A non-nil Go `error` value.  `traced` is the wrapper that `errors.Trace`
builds at a call site; every other error is `plain`. -/
inductive Error where
  | plain (msg : String)
  | traced (line : Nat) (previous : Error)
  deriving DecidableEq, Repr

/-- Modelled from the spec: `errors.Trace` of `github.com/juju/errors` is not
among the sources; it wraps the error it is given with trace information (the
location of the call) and keeps the error underneath. -/
def errors.Trace (line : Nat) (other : Error) : Error := .traced line other

/-- Modelled from the spec: `errors.Cause` of `github.com/juju/errors`, the
root cause of an error: what is left once every trace wrapper is removed. -/
def errors.Cause : Error → Error
  | .plain msg => .plain msg
  | .traced _ previous => errors.Cause previous

/-- The error directly under a trace wrapper. -/
def Error.previous? : Error → Option Error
  | .plain _ => none
  | .traced _ previous => some previous

/-- The session variables that `Compile` reads or writes
(`variable.SessionVars`).  `SnapshotInfoschema` is `none` when the field is
nil; a value it holds is an `infoschema.InfoSchema`, so that the type assertion
of line 126 succeeds. -/
structure SessionVars where
  InUpdateStmt : Bool
  SnapshotInfoschema : Option InfoSchema
  ConnectionID : Nat
  deriving DecidableEq, Repr

/-- What a `context.Context` gives access to: the session variables, the
schema that `sessionctx.GetDomain(ctx).InfoSchema()` returns at this moment, and
the schema version kept for the replication log. -/
structure Context where
  sessionVars : SessionVars
  domainInfoSchema : InfoSchema
  binlogSchemaVersion : Option Int
  deriving DecidableEq, Repr

/-- Modelled from the spec: `binloginfo.SetSchemaVersion` is not among the
sources; it records the version as the schema version of the replication log
entry of the statement. -/
def binloginfo.SetSchemaVersion (ctx : Context) (version : Int) : Context :=
  { ctx with binlogSchemaVersion := some version }

/-- The state that the stages keep outside the session: what preprocessing
writes on the node in place (resolved names, types).  None of it is read by
`Compile` or by `statementLabel`. -/
structure Annotations where
  notes : List String
  deriving DecidableEq, Repr

/-- A `plan.Plan` returned by the optimizer. -/
structure Plan where
  id : Nat
  deriving DecidableEq, Repr

/-- The struct `statement` that `Compile` fills in (lines 144 to 149). -/
structure statement where
  is : InfoSchema
  plan : Plan
  text : String
  isDDL : Bool
  deriving DecidableEq, Repr

/-- The three stages of package `plan`, which `Compile` calls and does not
define.  Each one is an arbitrary function of its arguments and of the state it
can reach, returns its results and the state it leaves; an error result `none`
is the nil error. -/
structure Stages where
  Preprocess : ast.StmtNode → InfoSchema → Context → Annotations →
    Option Error × Context × Annotations
  Validate : ast.StmtNode → Bool → Annotations → Option Error × Annotations
  Optimize : Context → ast.StmtNode → InfoSchema → Annotations →
    Plan × Option Error × Context × Annotations

/-- A call that leaves `Compile`, with its arguments and, for a stage, what it
returned (`err = none` is the nil error).  The context in `Preprocess` and
`Optimize` is the argument `ctx` as it is at the call; the one in `Validate`,
which takes no context, is the session as it is at that call. -/
inductive Event where
  /-- Line 114: `stmtNodeCounter.WithLabelValues(label).Inc()`. -/
  | CounterInc (label : String)
  /-- Line 127: `log.Infof` with the connection and the snapshot version. -/
  | Infof (connectionID : Nat) (version : Int)
  /-- Line 129: `sessionctx.GetDomain(ctx).InfoSchema()` and its result. -/
  | DomainInfoSchema (result : InfoSchema)
  /-- Line 130: `binloginfo.SetSchemaVersion(ctx, version)`. -/
  | SetSchemaVersion (version : Int)
  /-- Line 132: `plan.Preprocess(node, is, ctx)`. -/
  | Preprocess (node : ast.StmtNode) (is : InfoSchema) (ctx : Context) (err : Option Error)
  /-- Line 136: `plan.Validate(node, false)`. -/
  | Validate (node : ast.StmtNode) (inPrepare : Bool) (session : Context) (err : Option Error)
  /-- Line 139: `plan.Optimize(ctx, node, is)`. -/
  | Optimize (ctx : Context) (node : ast.StmtNode) (is : InfoSchema) (p : Plan)
      (err : Option Error)
  deriving DecidableEq, Repr

/-- Whether the event is a call of the replication schema-version recorder. -/
def Event.isSetSchemaVersion : Event → Bool
  | .SetSchemaVersion _ => true
  | _ => false

/-- Whether the event is a fetch of the current schema of the domain. -/
def Event.isDomainInfoSchema : Event → Bool
  | .DomainInfoSchema _ => true
  | _ => false

/-- Whether the event is a call of `plan.Validate`. -/
def Event.isValidate : Event → Bool
  | .Validate _ _ _ _ => true
  | _ => false

/-- Whether the event is a call of `plan.Optimize`. -/
def Event.isOptimize : Event → Bool
  | .Optimize _ _ _ _ _ => true
  | _ => false

/-- The schema handed to a stage: `Preprocess` and `Optimize` take one. -/
def Event.schema? : Event → Option InfoSchema
  | .Preprocess _ is _ _ => some is
  | .Optimize _ _ is _ _ => some is
  | _ => none

/-- Whether the event is a stage call that returned an error. -/
def Event.stageFailed : Event → Bool
  | .Preprocess _ _ _ (some _) => true
  | .Validate _ _ _ (some _) => true
  | .Optimize _ _ _ _ (some _) => true
  | _ => false

/-- Whether the event is a call of `plan.Preprocess` that returned no error. -/
def Event.preprocessSucceeded : Event → Bool
  | .Preprocess _ _ _ none => true
  | _ => false

/-- Whether the event is a call of `plan.Validate` that returned no error. -/
def Event.validateSucceeded : Event → Bool
  | .Validate _ _ _ none => true
  | _ => false

/-- Whether the event is a call of `plan.Optimize` that returned no error. -/
def Event.optimizeSucceeded : Event → Bool
  | .Optimize _ _ _ _ none => true
  | _ => false

/-- Whether the event is a call of one of the three stages. -/
def Event.isStage : Event → Bool
  | .Preprocess _ _ _ _ => true
  | .Validate _ _ _ _ => true
  | .Optimize _ _ _ _ _ => true
  | _ => false

/-- Whether the event is an increment of the statement counter. -/
def Event.isCounterInc : Event → Bool
  | .CounterInc _ => true
  | _ => false

/-- The session as it is when a stage is called. -/
def Event.session? : Event → Option Context
  | .Preprocess _ _ ctx _ => some ctx
  | .Validate _ _ session _ => some session
  | .Optimize ctx _ _ _ _ => some ctx
  | _ => none

/-- Everything a call of `Compile` can change: the session, the annotations
on the node, the process-wide counter `stmtNodeCounter` (one count per label),
and the calls made so far, oldest first.  `seen` holds the same calls, each
with the session as it is at the moment the call is made. -/
structure World where
  ctx : Context
  annot : Annotations
  stmtNodeCounter : String → Nat
  calls : List Event
  seen : List (Event × Context)

/-- Append a call to the record, and to `seen` with the session of the moment. -/
def World.record (w : World) (e : Event) : World :=
  { w with calls := w.calls ++ [e], seen := w.seen ++ [(e, w.ctx)] }

/-- The method `Inc` on the counter of one label. -/
def World.incCounter (w : World) (label : String) : World :=
  { w with stmtNodeCounter :=
      fun l => if l = label then w.stmtNodeCounter l + 1 else w.stmtNodeCounter l }

/-- The assignment `sVars.InUpdateStmt = b`. -/
def World.setInUpdateStmt (w : World) (b : Bool) : World :=
  { w with ctx := { w.ctx with sessionVars := { w.ctx.sessionVars with InUpdateStmt := b } } }

/-- How a call of `Compile` ends: it returns the pair `(ast.Statement, error)`,
`none` being nil, or it panics. -/
inductive Outcome where
  | returned (stmt : Option statement) (err : Option Error)
  | panicked (p : Panic)
  deriving DecidableEq, Repr

/-- The statement returned, if any. -/
def Outcome.stmt? : Outcome → Option statement
  | .returned stmt _ => stmt
  | .panicked _ => none

/-- The error returned, if any. -/
def Outcome.err? : Outcome → Option Error
  | .returned _ err => err
  | .panicked _ => none

/-- Lines 123 to 131 of `Compile`: the choice of the schema `is`. -/
def resolveSchema (w : World) : InfoSchema × World :=
  let sessVar := w.ctx.sessionVars
  match sessVar.SnapshotInfoschema with
  | some snap =>
    let is := snap
    (is, w.record (.Infof sessVar.ConnectionID is.SchemaMetaVersion))
  | none =>
    let is := w.ctx.domainInfoSchema
    let w := w.record (.DomainInfoSchema is)
    let w := w.record (.SetSchemaVersion is.SchemaMetaVersion)
    (is, { w with ctx := binloginfo.SetSchemaVersion w.ctx is.SchemaMetaVersion })

/-- Lines 132 to 150 of `Compile`: the three stages and the assembly of the
statement, for the schema `is`. -/
def runStages (st : Stages) (node : ast.StmtNode) (is : InfoSchema) (w : World) :
    Outcome × World :=
  match st.Preprocess node is w.ctx w.annot with
  | (some err, ctx, annot) =>
    let w := { w.record (.Preprocess node is w.ctx (some err)) with ctx := ctx, annot := annot }
    (.returned none (some (errors.Trace 133 err)), w)
  | (none, ctx, annot) =>
    let w := { w.record (.Preprocess node is w.ctx none) with ctx := ctx, annot := annot }
    match st.Validate node false w.annot with
    | (some err, annot) =>
      let w := { w.record (.Validate node false w.ctx (some err)) with annot := annot }
      (.returned none (some (errors.Trace 137 err)), w)
    | (none, annot) =>
      let w := { w.record (.Validate node false w.ctx none) with annot := annot }
      match st.Optimize w.ctx node is w.annot with
      | (p, some err, ctx, annot) =>
        let w := { w.record (.Optimize w.ctx node is p (some err)) with
                   ctx := ctx, annot := annot }
        (.returned none (some (errors.Trace 141 err)), w)
      | (p, none, ctx, annot) =>
        let w := { w.record (.Optimize w.ctx node is p none) with ctx := ctx, annot := annot }
        let isDDL := node.isDDLNode
        match node.Text with
        | .error pn => (.panicked pn, w)
        | .ok text =>
          (.returned (some { is := is, plan := p, text := text, isDDL := isDDL }) none, w)

/-- Lines 123 to 150 of `Compile`: everything after the deferred reset is
registered. -/
def compileBody (st : Stages) (node : ast.StmtNode) (w : World) : Outcome × World :=
  let r := resolveSchema w
  runStages st node r.1 r.2

/-- The method `Compiler.Compile` (lines 113 to 151).  A panic of
`statementLabel` leaves the function at line 114, before anything else is
done.  The function deferred at line 118 runs when the body is left, by a
return or by a panic. -/
def Compile (st : Stages) (node : ast.StmtNode) (w : World) : Outcome × World :=
  match statementLabel node with
  | .error p => (.panicked p, w)
  | .ok label =>
    let w := (w.record (.CounterInc label)).incCounter label
    if node.isUpdateStmt then
      let w := w.setInUpdateStmt true
      let r := compileBody st node w
      (r.1, r.2.setInUpdateStmt false)
    else
      compileBody st node w


/-- The stage `Preprocess` returns the session with the flag as it found it:
by its description it writes on the node, not on the flag. -/
def Stages.preprocessKeepsFlag (st : Stages) : Prop :=
  ∀ node is ctx annot,
    (st.Preprocess node is ctx annot).2.1.sessionVars.InUpdateStmt =
      ctx.sessionVars.InUpdateStmt

/-- The stage `Optimize` returns the session with the flag as it found it. -/
def Stages.optimizeKeepsFlag (st : Stages) : Prop :=
  ∀ ctx node is annot,
    (st.Optimize ctx node is annot).2.2.1.sessionVars.InUpdateStmt =
      ctx.sessionVars.InUpdateStmt

/-! ## The run of `Compile` as a relation between calls and outcome -/

/-- The calls recorded during one call of `Compile`, oldest first. -/
def callsOf (st : Stages) (node : ast.StmtNode) (w : World) : List Event :=
  (Compile st node w).2.calls.drop w.calls.length

/-- The calls recorded during one call of `Compile`, oldest first, each with
the session as it is at the moment of the call. -/
def seenOf (st : Stages) (node : ast.StmtNode) (w : World) : List (Event × Context) :=
  (Compile st node w).2.seen.drop w.seen.length

/-- The session that `Compile` hands to `plan.Preprocess`: the flag is set for
an update statement, and the schema version is recorded when the schema is the
current one of the domain. -/
def ctxAtPreprocess (node : ast.StmtNode) (w : World) : Context :=
  let c := if node.isUpdateStmt then (w.setInUpdateStmt true).ctx else w.ctx
  match c.sessionVars.SnapshotInfoschema with
  | some _ => c
  | none => binloginfo.SetSchemaVersion c c.domainInfoSchema.SchemaMetaVersion

/-- The stage calls of one run, for the schema `is` and the session `c` at the
first call, together with the way the run ends. -/
inductive StageRun (node : ast.StmtNode) (is : InfoSchema) (c : Context) :
    List Event → Outcome → Prop
  | preprocessFailed (e : Error) :
      StageRun node is c [.Preprocess node is c (some e)]
        (.returned none (some (errors.Trace 133 e)))
  | validateFailed (c1 : Context) (e : Error) :
      StageRun node is c [.Preprocess node is c none, .Validate node false c1 (some e)]
        (.returned none (some (errors.Trace 137 e)))
  | optimizeFailed (c1 : Context) (p : Plan) (e : Error) :
      StageRun node is c
        [.Preprocess node is c none, .Validate node false c1 none,
          .Optimize c1 node is p (some e)]
        (.returned none (some (errors.Trace 141 e)))
  | assembled (c1 : Context) (p : Plan) (text : String) (ht : node.Text = .ok text) :
      StageRun node is c
        [.Preprocess node is c none, .Validate node false c1 none, .Optimize c1 node is p none]
        (.returned (some ⟨is, p, text, node.isDDLNode⟩) none)
  | textPanicked (c1 : Context) (p : Plan) (pn : Panic) (ht : node.Text = .error pn) :
      StageRun node is c
        [.Preprocess node is c none, .Validate node false c1 none, .Optimize c1 node is p none]
        (.panicked pn)

/-- The calls of one run of `Compile` from the world `w`, together with the way
the run ends. -/
inductive CompileRun (node : ast.StmtNode) (w : World) : List Event → Outcome → Prop
  | classifierPanicked (p : Panic) (hl : statementLabel node = .error p) :
      CompileRun node w [] (.panicked p)
  | pinned (label : String) (snap : InfoSchema) (evs : List Event) (out : Outcome)
      (hl : statementLabel node = .ok label)
      (hs : w.ctx.sessionVars.SnapshotInfoschema = some snap)
      (hr : StageRun node snap (ctxAtPreprocess node w) evs out) :
      CompileRun node w
        (.CounterInc label ::
          .Infof w.ctx.sessionVars.ConnectionID snap.SchemaMetaVersion :: evs) out
  | live (label : String) (evs : List Event) (out : Outcome)
      (hl : statementLabel node = .ok label)
      (hs : w.ctx.sessionVars.SnapshotInfoschema = none)
      (hr : StageRun node w.ctx.domainInfoSchema (ctxAtPreprocess node w) evs out) :
      CompileRun node w
        (.CounterInc label :: .DomainInfoSchema w.ctx.domainInfoSchema ::
          .SetSchemaVersion w.ctx.domainInfoSchema.SchemaMetaVersion :: evs) out

/-! ## Concrete stages, nodes and sessions -/

/-- Stages that all succeed and leave the session as they find it. -/
def okStages : Stages where
  Preprocess := fun _ _ c a => (none, c, a)
  Validate := fun _ _ a => (none, a)
  Optimize := fun c _ _ a => (⟨7⟩, none, c, a)

/-- Stages of which the first one fails. -/
def failingPreprocess : Stages where
  Preprocess := fun _ _ c a => (some (.plain "unknown column"), c, a)
  Validate := fun _ _ a => (none, a)
  Optimize := fun c _ _ a => (⟨7⟩, none, c, a)

/-- A world with an empty record, for the given flag and pinned snapshot; the
current schema of the domain is snapshot 1, of version 42. -/
def sessionWorld (inUpdate : Bool) (snap : Option InfoSchema) : World where
  ctx := ⟨⟨inUpdate, snap, 3⟩, ⟨1, 42⟩, none⟩
  annot := ⟨[]⟩
  stmtNodeCounter := fun _ => 0
  calls := []
  seen := []

/-- The node of `UPDATE t SET a = 1`. -/
def updateNode : ast.StmtNode := .UpdateStmt (some ⟨"UPDATE t SET a = 1"⟩)

/-- The node of `SELECT * FROM t`. -/
def selectNode : ast.StmtNode :=
  .SelectStmt (some
    { From := some ⟨some ⟨.TableSource (.TableName "t") "", .nil, none⟩⟩
      Distinct := false, Fields := ["*"], Where := none, GroupBy := [], Having := none
      OrderBy := [], Limit := none, text := "SELECT * FROM t" })

/-- Stages that succeed, the first of which sees the domain move on to a new
schema, snapshot 2 of version 43, while it runs. -/
def schemaChangingStages : Stages where
  Preprocess := fun _ _ c a => (none, { c with domainInfoSchema := ⟨2, 43⟩ }, a)
  Validate := fun _ _ a => (none, a)
  Optimize := fun c _ _ a => (⟨7⟩, none, c, a)

/-- The statement kind that a label stands for; none for any other string. -/
def labelKind : String → Option ast.Kind
  | "AlterTable" => some .AlterTable
  | "AnalyzeTable" => some .AnalyzeTable
  | "Begin" => some .Begin
  | "Commit" => some .Commit
  | "CreateDatabase" => some .CreateDatabase
  | "CreateIndex" => some .CreateIndex
  | "CreateTable" => some .CreateTable
  | "CreateUser" => some .CreateUser
  | "Deallocate" => some .Deallocate
  | "Delete" => some .Delete
  | "Do" => some .Do
  | "DropDatabase" => some .DropDatabase
  | "DropIndex" => some .DropIndex
  | "DropTable" => some .DropTable
  | "DropUser" => some .DropUser
  | "Execute" => some .Execute
  | "Explain" => some .Explain
  | "FlushTable" => some .FlushTable
  | "Grant" => some .Grant
  | "Insert" => some .Insert
  | "Replace" => some .Insert
  | "LoadData" => some .LoadData
  | "Prepare" => some .Prepare
  | "Rollback" => some .Rollback
  | "Select-Simple" => some .Select
  | "Select-Complex" => some .Select
  | "SetPwd" => some .SetPwd
  | "Show" => some .Show
  | "TruncateTable" => some .TruncateTable
  | "Update" => some .Update
  | _ => none

/-- A Select node with the given FROM clause and no other clause. -/
def selectFrom (From : Option ast.TableRefsClause) : ast.StmtNode :=
  .SelectStmt (some
    { From := From, Distinct := false, Fields := ["*"], Where := none, GroupBy := []
      Having := none, OrderBy := [], Limit := none, text := "SELECT *" })

/-- An Insert node with the given replace modifier. -/
def insertNode (isReplace : Bool) : ast.StmtNode :=
  .InsertStmt (some
    { IsReplace := isReplace, Table := none, Columns := ["a"], Lists := [["1"]]
      OnDuplicate := [], Priority := 0, text := "INSERT INTO t (a) VALUES (1)" })

/-- The node of `CREATE TABLE t (a INT)`. -/
def createTableNode : ast.StmtNode := .CreateTableStmt (some ⟨"CREATE TABLE t (a INT)"⟩)

/-- Stages that succeed, the last of which changes the session: it pins
snapshot 5 and moves the domain on to snapshot 2; the flag is left alone. -/
def sessionChangingStages : Stages where
  Preprocess := fun _ _ c a => (none, c, a)
  Validate := fun _ _ a => (none, a)
  Optimize := fun c _ _ a =>
    (⟨7⟩, none,
      { c with sessionVars := { c.sessionVars with SnapshotInfoschema := some ⟨5, 30⟩ }
               domainInfoSchema := ⟨2, 43⟩ }, a)

/-- Stages that succeed, the first of which hands the session back with the
flag cleared. -/
def flagClearingStages : Stages where
  Preprocess := fun _ _ c a =>
    (none, { c with sessionVars := { c.sessionVars with InUpdateStmt := false } }, a)
  Validate := fun _ _ a => (none, a)
  Optimize := fun c _ _ a => (⟨7⟩, none, c, a)

/-! ## Shared lemmas -/

/-- The calls and the outcome of `runStages` form a stage run. -/
theorem runStages_run (st : Stages) (node : ast.StmtNode) (is : InfoSchema) (w : World) :
    ∃ evs, (runStages st node is w).2.calls = w.calls ++ evs ∧
      StageRun node is w.ctx evs (runStages st node is w).1 := by
  unfold runStages
  rcases hP : st.Preprocess node is w.ctx w.annot with ⟨_ | e, c, a⟩
  · rcases hV : st.Validate node false a with ⟨_ | e, a2⟩
    · rcases hO : st.Optimize c node is a2 with ⟨p, _ | e, c2, a3⟩
      · refine ⟨[.Preprocess node is w.ctx none, .Validate node false c none,
          .Optimize c node is p none], ?_, ?_⟩
        · simp only [World.record, hV, hO]
          cases node.Text <;> simp
        · simp only [World.record, hV, hO]
          cases ht : node.Text with
          | error pn => exact .textPanicked c p pn ht
          | ok text => exact .assembled c p text ht
      · refine ⟨[.Preprocess node is w.ctx none, .Validate node false c none,
          .Optimize c node is p (some e)], ?_, ?_⟩
        · simp [World.record, hV, hO]
        · simp only [World.record, hV, hO]
          exact .optimizeFailed c p e
    · refine ⟨[.Preprocess node is w.ctx none, .Validate node false c (some e)], ?_, ?_⟩
      · simp [World.record, hV]
      · simp only [World.record, hV]
        exact .validateFailed c e
  · refine ⟨[.Preprocess node is w.ctx (some e)], ?_, ?_⟩
    · simp [World.record]
    · simp only [World.record]
      exact .preprocessFailed e

/-- The calls and the outcome of `compileBody`, when a snapshot is pinned. -/
theorem compileBody_pinned (st : Stages) (node : ast.StmtNode) (w : World) (snap : InfoSchema)
    (hs : w.ctx.sessionVars.SnapshotInfoschema = some snap) :
    ∃ evs, (compileBody st node w).2.calls =
        w.calls ++ .Infof w.ctx.sessionVars.ConnectionID snap.SchemaMetaVersion :: evs ∧
      StageRun node snap w.ctx evs (compileBody st node w).1 := by
  obtain ⟨evs, h1, h2⟩ := runStages_run st node snap
    (w.record (.Infof w.ctx.sessionVars.ConnectionID snap.SchemaMetaVersion))
  refine ⟨evs, ?_, ?_⟩
  · simp only [compileBody, resolveSchema, hs]
    rw [h1]
    simp [World.record]
  · simp only [compileBody, resolveSchema, hs]
    exact h2

/-- The calls and the outcome of `compileBody`, when no snapshot is pinned. -/
theorem compileBody_live (st : Stages) (node : ast.StmtNode) (w : World)
    (hs : w.ctx.sessionVars.SnapshotInfoschema = none) :
    ∃ evs, (compileBody st node w).2.calls =
        w.calls ++ .DomainInfoSchema w.ctx.domainInfoSchema ::
          .SetSchemaVersion w.ctx.domainInfoSchema.SchemaMetaVersion :: evs ∧
      StageRun node w.ctx.domainInfoSchema
        (binloginfo.SetSchemaVersion w.ctx w.ctx.domainInfoSchema.SchemaMetaVersion) evs
        (compileBody st node w).1 := by
  obtain ⟨evs, h1, h2⟩ := runStages_run st node w.ctx.domainInfoSchema
    { (w.record (.DomainInfoSchema w.ctx.domainInfoSchema)).record
        (.SetSchemaVersion w.ctx.domainInfoSchema.SchemaMetaVersion) with
      ctx := binloginfo.SetSchemaVersion w.ctx w.ctx.domainInfoSchema.SchemaMetaVersion }
  refine ⟨evs, ?_, ?_⟩
  · simp only [compileBody, resolveSchema, hs]
    simp only [World.record] at h1 ⊢
    rw [h1]
    simp
  · simp only [compileBody, resolveSchema, hs]
    simp only [World.record] at h2 ⊢
    exact h2

/-- The calls and the outcome of `Compile` form a run of `Compile`. -/
theorem Compile_run_aux (st : Stages) (node : ast.StmtNode) (w : World) :
    ∃ evs, (Compile st node w).2.calls = w.calls ++ evs ∧
      CompileRun node w evs (Compile st node w).1 := by
  cases hl : statementLabel node with
  | error p =>
    refine ⟨[], ?_, ?_⟩
    · simp [Compile, hl]
    · simp only [Compile, hl]
      exact .classifierPanicked p hl
  | ok label =>
    cases hU : node.isUpdateStmt with
    | true =>
      cases hs : w.ctx.sessionVars.SnapshotInfoschema with
      | some snap =>
        obtain ⟨evs, h1, h2⟩ := compileBody_pinned st node
          (((w.record (.CounterInc label)).incCounter label).setInUpdateStmt true) snap hs
        refine ⟨_, ?_, .pinned label snap evs _ hl hs ?_⟩
        · simp only [Compile, hl, hU, if_true, World.setInUpdateStmt]
          simp only [World.setInUpdateStmt] at h1
          rw [h1]
          simp [World.record, World.incCounter]
        · simp only [Compile, hl, hU, if_true]
          have hc : ctxAtPreprocess node w =
              (((w.record (.CounterInc label)).incCounter label).setInUpdateStmt true).ctx := by
            simp [ctxAtPreprocess, hU, hs, World.setInUpdateStmt, World.record, World.incCounter]
          rw [hc]
          exact h2
      | none =>
        obtain ⟨evs, h1, h2⟩ := compileBody_live st node
          (((w.record (.CounterInc label)).incCounter label).setInUpdateStmt true) hs
        refine ⟨_, ?_, .live label evs _ hl hs ?_⟩
        · simp only [Compile, hl, hU, if_true, World.setInUpdateStmt]
          simp only [World.setInUpdateStmt] at h1
          rw [h1]
          simp [World.record, World.incCounter]
        · simp only [Compile, hl, hU, if_true]
          have hc : ctxAtPreprocess node w = binloginfo.SetSchemaVersion
              (((w.record (.CounterInc label)).incCounter label).setInUpdateStmt true).ctx
              w.ctx.domainInfoSchema.SchemaMetaVersion := by
            simp [ctxAtPreprocess, hU, hs, World.setInUpdateStmt, World.record, World.incCounter]
          rw [hc]
          exact h2
    | false =>
      cases hs : w.ctx.sessionVars.SnapshotInfoschema with
      | some snap =>
        obtain ⟨evs, h1, h2⟩ := compileBody_pinned st node
          ((w.record (.CounterInc label)).incCounter label) snap hs
        refine ⟨_, ?_, .pinned label snap evs _ hl hs ?_⟩
        · simp only [Compile, hl, hU]
          simp only [Bool.false_eq_true, if_false]
          rw [h1]
          simp [World.record, World.incCounter]
        · simp only [Compile, hl, hU]
          simp only [Bool.false_eq_true, if_false]
          have hc : ctxAtPreprocess node w =
              ((w.record (.CounterInc label)).incCounter label).ctx := by
            simp [ctxAtPreprocess, hU, hs, World.record, World.incCounter]
          rw [hc]
          exact h2
      | none =>
        obtain ⟨evs, h1, h2⟩ := compileBody_live st node
          ((w.record (.CounterInc label)).incCounter label) hs
        refine ⟨_, ?_, .live label evs _ hl hs ?_⟩
        · simp only [Compile, hl, hU]
          simp only [Bool.false_eq_true, if_false]
          rw [h1]
          simp [World.record, World.incCounter]
        · simp only [Compile, hl, hU]
          simp only [Bool.false_eq_true, if_false]
          have hc : ctxAtPreprocess node w = binloginfo.SetSchemaVersion
              ((w.record (.CounterInc label)).incCounter label).ctx
              w.ctx.domainInfoSchema.SchemaMetaVersion := by
            simp [ctxAtPreprocess, hU, hs, World.record, World.incCounter]
          rw [hc]
          exact h2

/-- The record after `Compile` is the record before it followed by `callsOf`. -/
theorem Compile_calls (st : Stages) (node : ast.StmtNode) (w : World) :
    (Compile st node w).2.calls = w.calls ++ callsOf st node w := by
  obtain ⟨evs, h1, _⟩ := Compile_run_aux st node w
  simp [callsOf, h1]

/-- The calls made by `Compile` and its outcome form a run of `Compile`. -/
theorem Compile_run (st : Stages) (node : ast.StmtNode) (w : World) :
    CompileRun node w (callsOf st node w) (Compile st node w).1 := by
  obtain ⟨evs, h1, h2⟩ := Compile_run_aux st node w
  have : callsOf st node w = evs := by simp [callsOf, h1]
  rw [this]
  exact h2

/-! ## The flag of the session -/

/-- C1, counterexample: with the flag set before the call, `Compile` of an
update statement whose stages all succeed leaves the flag cleared, not at its
value before the call. -/
theorem C1_flag_not_restored :
    (sessionWorld true none).ctx.sessionVars.InUpdateStmt = true ∧
    (Compile okStages updateNode (sessionWorld true none)).2.ctx.sessionVars.InUpdateStmt
      = false := by
  decide

/-- C1, as amended: for every session, every Update-kind node and every
behaviour of the stages, the flag after `Compile` equals its value before the
call exactly when that value was false. -/
theorem C1_flag_equals_precall_iff_clear (st : Stages) (x : Option ast.Stmt) (w : World) :
    (Compile st (.UpdateStmt x) w).2.ctx.sessionVars.InUpdateStmt
        = w.ctx.sessionVars.InUpdateStmt ↔
      w.ctx.sessionVars.InUpdateStmt = false := by
  simp only [Compile, statementLabel, ast.StmtNode.isUpdateStmt, if_true,
    World.setInUpdateStmt]
  exact eq_comm

/-- C2: for every session, every Update-kind node and every behaviour of the
stages, the flag is false when `Compile` is left, whichever exit is taken. -/
theorem C2_flag_cleared_on_every_exit (st : Stages) (x : Option ast.Stmt) (w : World) :
    (Compile st (.UpdateStmt x) w).2.ctx.sessionVars.InUpdateStmt = false := by
  simp only [Compile, statementLabel, ast.StmtNode.isUpdateStmt, if_true,
    World.setInUpdateStmt]

/-! ## The choice of the schema -/

/-- C3: with a pinned snapshot in the session, no call made by `Compile` is a
call of the schema-version recorder or a fetch of the current schema of the
domain, every stage that takes a schema takes the snapshot, the statement
returned holds the snapshot, and once the node is labelled the calls begin with
the counter, the log line and `Preprocess` on the snapshot. -/
theorem C3_pinned_snapshot_used (st : Stages) (node : ast.StmtNode) (w : World)
    (snap : InfoSchema) (hs : w.ctx.sessionVars.SnapshotInfoschema = some snap) :
    (∀ e ∈ callsOf st node w, e.isSetSchemaVersion = false ∧ e.isDomainInfoSchema = false ∧
        (e.schema? = none ∨ e.schema? = some snap)) ∧
    (∀ s, (Compile st node w).1.stmt? = some s → s.is = snap) ∧
    (∀ label, statementLabel node = .ok label →
      ∃ err rest, callsOf st node w =
        .CounterInc label :: .Infof w.ctx.sessionVars.ConnectionID snap.SchemaMetaVersion ::
          .Preprocess node snap (ctxAtPreprocess node w) err :: rest) := by
  have h := Compile_run st node w
  generalize callsOf st node w = evs at h ⊢
  generalize (Compile st node w).1 = out at h ⊢
  cases h with
  | classifierPanicked p hl => simp [Outcome.stmt?, hl]
  | live label evs out hl hs2 hr => simp [hs] at hs2
  | pinned label snap2 evs out hl hs2 hr =>
    have hsn : snap2 = snap := by simpa [hs] using hs2.symm
    subst hsn
    cases hr <;>
      simp [Event.isSetSchemaVersion, Event.isDomainInfoSchema, Event.schema?,
        Outcome.stmt?, hl]

/-- C3, witness: a select statement compiled against the pinned snapshot 9. -/
theorem C3_pinned_snapshot_used_witness :
    (sessionWorld false (some ⟨9, 40⟩)).ctx.sessionVars.SnapshotInfoschema = some ⟨9, 40⟩ ∧
    (∀ s, (Compile okStages selectNode (sessionWorld false (some ⟨9, 40⟩))).1.stmt? = some s →
      s.is = ⟨9, 40⟩) :=
  ⟨rfl, (C3_pinned_snapshot_used okStages selectNode (sessionWorld false (some ⟨9, 40⟩))
    ⟨9, 40⟩ rfl).2.1⟩

/-- C4, counterexample: with no pinned snapshot, `Compile` of the nil pointer
of the Select type panics in the classifier, at line 114, and the
schema-version recorder is not called. -/
theorem C4_recorder_not_called_on_nil_select :
    (sessionWorld false none).ctx.sessionVars.SnapshotInfoschema = none ∧
    (Compile okStages (.SelectStmt none) (sessionWorld false none)).1 =
      .panicked .nilDereference ∧
    (callsOf okStages (.SelectStmt none) (sessionWorld false none)).filter
      Event.isSetSchemaVersion = [] := by
  decide

/-- C4, as amended: with no pinned snapshot, for every node that the
classifier labels and every behaviour of the stages, `Compile` fetches the
current schema of the domain once, calls the schema-version recorder exactly
once, with the version of that schema, hands that schema to every stage that
takes one and stores it in the statement returned; for a node on which the
classifier panics, `Compile` panics and makes no call. -/
theorem C4_live_schema_recorded_once (st : Stages) (node : ast.StmtNode) (w : World)
    (hs : w.ctx.sessionVars.SnapshotInfoschema = none) :
    (∀ label, statementLabel node = .ok label →
      (callsOf st node w).filter Event.isSetSchemaVersion =
          [.SetSchemaVersion w.ctx.domainInfoSchema.SchemaMetaVersion] ∧
      (callsOf st node w).filter Event.isDomainInfoSchema =
          [.DomainInfoSchema w.ctx.domainInfoSchema] ∧
      (∃ err rest, callsOf st node w =
          .CounterInc label :: .DomainInfoSchema w.ctx.domainInfoSchema ::
            .SetSchemaVersion w.ctx.domainInfoSchema.SchemaMetaVersion ::
            .Preprocess node w.ctx.domainInfoSchema (ctxAtPreprocess node w) err :: rest) ∧
      (∀ e ∈ callsOf st node w,
          e.schema? = none ∨ e.schema? = some w.ctx.domainInfoSchema) ∧
      (∀ s, (Compile st node w).1.stmt? = some s → s.is = w.ctx.domainInfoSchema)) ∧
    (∀ p, statementLabel node = .error p →
      (Compile st node w).1 = .panicked p ∧ callsOf st node w = []) := by
  refine ⟨fun label hl => ?_, fun p hl => ?_⟩
  · have h := Compile_run st node w
    generalize callsOf st node w = evs at h ⊢
    generalize (Compile st node w).1 = out at h ⊢
    cases h with
    | classifierPanicked p hl2 => simp [hl] at hl2
    | pinned label2 snap evs out hl2 hs2 hr => simp [hs] at hs2
    | live label2 evs out hl2 hs2 hr =>
      have hlb : label2 = label := by
        have := hl2.symm.trans hl
        simpa using this
      subst hlb
      cases hr <;>
        simp [Event.isSetSchemaVersion, Event.isDomainInfoSchema, Event.schema?,
          Outcome.stmt?, List.filter]
  · simp [callsOf, Compile, hl]

/-- C4, witness: a select statement compiled against the current schema. -/
theorem C4_live_schema_recorded_once_witness :
    (sessionWorld false none).ctx.sessionVars.SnapshotInfoschema = none ∧
    statementLabel selectNode = .ok "Select-Simple" ∧
    (callsOf okStages selectNode (sessionWorld false none)).filter Event.isSetSchemaVersion =
      [.SetSchemaVersion 42] :=
  ⟨rfl, rfl, ((C4_live_schema_recorded_once okStages selectNode (sessionWorld false none)
    rfl).1 "Select-Simple" rfl).1⟩

/-! ## Failure of a stage -/

/-- C5: if a call of `Preprocess` made by `Compile` returns the error `e`, then
`Compile` returns no statement and the error `errors.Trace e`, under whose
wrapper lies `e` and whose root cause is the root cause of `e`, and `Compile`
calls neither `Validate` nor `Optimize`. -/
theorem C5_preprocess_error_propagates (st : Stages) (node : ast.StmtNode) (w : World)
    (n : ast.StmtNode) (is : InfoSchema) (c : Context) (e : Error)
    (h : Event.Preprocess n is c (some e) ∈ callsOf st node w) :
    (Compile st node w).1 = .returned none (some (errors.Trace 133 e)) ∧
    (errors.Trace 133 e).previous? = some e ∧
    errors.Cause (errors.Trace 133 e) = errors.Cause e ∧
    (∀ ev ∈ callsOf st node w, ev.isValidate = false ∧ ev.isOptimize = false) := by
  have hr := Compile_run st node w
  generalize callsOf st node w = evs at h hr ⊢
  generalize (Compile st node w).1 = out at hr ⊢
  refine ⟨?_, rfl, rfl, ?_⟩
  · cases hr with
    | classifierPanicked p hl => simp at h
    | pinned label snap evs out hl hs hr => cases hr <;> simp_all
    | live label evs out hl hs hr => cases hr <;> simp_all
  · cases hr with
    | classifierPanicked p hl => simp at h
    | pinned label snap evs out hl hs hr =>
      cases hr <;> simp_all [Event.isValidate, Event.isOptimize]
    | live label evs out hl hs hr =>
      cases hr <;> simp_all [Event.isValidate, Event.isOptimize]

/-- C5, witness: a select statement whose preprocessing fails. -/
theorem C5_preprocess_error_propagates_witness :
    Event.Preprocess selectNode ⟨1, 42⟩ ⟨⟨false, none, 3⟩, ⟨1, 42⟩, some 42⟩
        (some (.plain "unknown column")) ∈
      callsOf failingPreprocess selectNode (sessionWorld false none) ∧
    (Compile failingPreprocess selectNode (sessionWorld false none)).1 =
      .returned none (some (errors.Trace 133 (.plain "unknown column"))) :=
  ⟨by decide, (C5_preprocess_error_propagates failingPreprocess selectNode
    (sessionWorld false none) selectNode ⟨1, 42⟩ ⟨⟨false, none, 3⟩, ⟨1, 42⟩, some 42⟩
    (.plain "unknown column") (by decide)).1⟩

/-- C6, counterexample: on the nil pointer of the Update type the three stages
succeed and `Compile` panics at the read of the text, so that no statement is
returned. -/
theorem C6_no_statement_on_nil_node :
    (callsOf okStages (.UpdateStmt none) (sessionWorld false none)).any
      Event.preprocessSucceeded = true ∧
    (callsOf okStages (.UpdateStmt none) (sessionWorld false none)).any
      Event.validateSucceeded = true ∧
    (callsOf okStages (.UpdateStmt none) (sessionWorld false none)).any
      Event.optimizeSucceeded = true ∧
    (Compile okStages (.UpdateStmt none) (sessionWorld false none)).1 =
      .panicked .nilDereference ∧
    (Compile okStages (.UpdateStmt none) (sessionWorld false none)).1.stmt? = none := by
  decide

/-- C6, as amended: for every session and node, `Compile` returns a statement
if and only if `Preprocess`, `Validate` and `Optimize` have all returned
without error and the text of the node can be read; if a stage has returned an
error, `Compile` returns no statement and a non-nil error; if all three have
succeeded it returns a statement and the nil error when the text can be read,
and panics when it cannot. -/
theorem C6_statement_iff_all_stages_succeed (st : Stages) (node : ast.StmtNode) (w : World) :
    ((Compile st node w).1.stmt? ≠ none ↔
      ((callsOf st node w).any Event.preprocessSucceeded = true ∧
        (callsOf st node w).any Event.validateSucceeded = true ∧
        (callsOf st node w).any Event.optimizeSucceeded = true ∧
        ∃ text, node.Text = .ok text)) ∧
    ((callsOf st node w).any Event.stageFailed = true →
      (Compile st node w).1.stmt? = none ∧ (Compile st node w).1.err? ≠ none) ∧
    (((callsOf st node w).any Event.preprocessSucceeded = true ∧
        (callsOf st node w).any Event.validateSucceeded = true ∧
        (callsOf st node w).any Event.optimizeSucceeded = true) →
      (∀ text, node.Text = .ok text → ∃ s, (Compile st node w).1 = .returned (some s) none) ∧
      (∀ pn, node.Text = .error pn → (Compile st node w).1 = .panicked pn)) := by
  have hr := Compile_run st node w
  generalize callsOf st node w = evs at hr ⊢
  generalize (Compile st node w).1 = out at hr ⊢
  cases hr with
  | classifierPanicked p hl =>
    simp [Outcome.stmt?]
  | pinned label snap evs out hl hs hr =>
    cases hr <;>
      simp_all [Outcome.stmt?, Outcome.err?, Event.preprocessSucceeded,
        Event.validateSucceeded, Event.optimizeSucceeded, Event.stageFailed]
  | live label evs out hl hs hr =>
    cases hr <;>
      simp_all [Outcome.stmt?, Outcome.err?, Event.preprocessSucceeded,
        Event.validateSucceeded, Event.optimizeSucceeded, Event.stageFailed]

/-- C6, witness: a select statement whose three stages succeed. -/
theorem C6_statement_iff_all_stages_succeed_witness :
    selectNode.Text = .ok "SELECT * FROM t" ∧
    ∃ s, (Compile okStages selectNode (sessionWorld false none)).1 = .returned (some s) none :=
  ⟨rfl, ((C6_statement_iff_all_stages_succeed okStages selectNode
    (sessionWorld false none)).2.2 (by decide)).1 "SELECT * FROM t" rfl⟩

/-- C7: when `Compile` returns a statement, the schema stored in it is the one
`Preprocess` was called with and the one `Optimize` was called with to produce
the stored plan; no stage of the call was given another schema; it is the schema
chosen from the session as it was before the call, whatever the stages did to
the session since; and the current schema of the domain was fetched at most
once. -/
theorem C7_one_schema_per_call (st : Stages) (node : ast.StmtNode) (w : World)
    (s : statement) (h : (Compile st node w).1.stmt? = some s) :
    (∃ c1 c3, Event.Preprocess node s.is c1 none ∈ callsOf st node w ∧
      Event.Optimize c3 node s.is s.plan none ∈ callsOf st node w) ∧
    (∀ e ∈ callsOf st node w, e.schema? = none ∨ e.schema? = some s.is) ∧
    s.is = (w.ctx.sessionVars.SnapshotInfoschema).getD w.ctx.domainInfoSchema ∧
    ((callsOf st node w).filter Event.isDomainInfoSchema).length ≤ 1 := by
  have hr := Compile_run st node w
  generalize callsOf st node w = evs at hr ⊢
  generalize (Compile st node w).1 = out at h hr ⊢
  cases hr with
  | classifierPanicked p hl => simp [Outcome.stmt?] at h
  | pinned label snap evs out hl hs hr =>
    cases hr <;> simp [Outcome.stmt?] at h
    subst h
    simp [Event.schema?, Event.isDomainInfoSchema, hs, List.filter]
  | live label evs out hl hs hr =>
    cases hr <;> simp [Outcome.stmt?] at h
    subst h
    simp [Event.schema?, Event.isDomainInfoSchema, hs, List.filter]

/-- C7, witness: the domain moves on to snapshot 2 during preprocessing, and the
statement returned still holds snapshot 1, which both stages were given. -/
theorem C7_one_schema_per_call_witness :
    (Compile schemaChangingStages selectNode (sessionWorld false none)).1.stmt? =
        some ⟨⟨1, 42⟩, ⟨7⟩, "SELECT * FROM t", false⟩ ∧
    (Compile schemaChangingStages selectNode (sessionWorld false none)).2.ctx.domainInfoSchema =
        ⟨2, 43⟩ ∧
    ∀ e ∈ callsOf schemaChangingStages selectNode (sessionWorld false none),
      e.schema? = none ∨ e.schema? = some ⟨1, 42⟩ :=
  ⟨by decide, by decide,
    (C7_one_schema_per_call schemaChangingStages selectNode (sessionWorld false none)
      ⟨⟨1, 42⟩, ⟨7⟩, "SELECT * FROM t", false⟩ (by decide)).2.1⟩

/-! ## The classifier -/

/-- C8: on a node of each statement type with a single label, nil pointer or
not, `statementLabel` returns the label named after the type; on a node of any
type without a case in the switch, and on the nil interface, it returns
"unknown". -/
theorem C8_fixed_labels :
    (∀ x, statementLabel (.AlterTableStmt x) = .ok "AlterTable") ∧
    (∀ x, statementLabel (.AnalyzeTableStmt x) = .ok "AnalyzeTable") ∧
    (∀ x, statementLabel (.BeginStmt x) = .ok "Begin") ∧
    (∀ x, statementLabel (.CommitStmt x) = .ok "Commit") ∧
    (∀ x, statementLabel (.CreateDatabaseStmt x) = .ok "CreateDatabase") ∧
    (∀ x, statementLabel (.CreateIndexStmt x) = .ok "CreateIndex") ∧
    (∀ x, statementLabel (.CreateTableStmt x) = .ok "CreateTable") ∧
    (∀ x, statementLabel (.CreateUserStmt x) = .ok "CreateUser") ∧
    (∀ x, statementLabel (.DeallocateStmt x) = .ok "Deallocate") ∧
    (∀ x, statementLabel (.DeleteStmt x) = .ok "Delete") ∧
    (∀ x, statementLabel (.DoStmt x) = .ok "Do") ∧
    (∀ x, statementLabel (.DropDatabaseStmt x) = .ok "DropDatabase") ∧
    (∀ x, statementLabel (.DropIndexStmt x) = .ok "DropIndex") ∧
    (∀ x, statementLabel (.DropTableStmt x) = .ok "DropTable") ∧
    (∀ x, statementLabel (.DropUserStmt x) = .ok "DropUser") ∧
    (∀ x, statementLabel (.ExecuteStmt x) = .ok "Execute") ∧
    (∀ x, statementLabel (.ExplainStmt x) = .ok "Explain") ∧
    (∀ x, statementLabel (.FlushTableStmt x) = .ok "FlushTable") ∧
    (∀ x, statementLabel (.GrantStmt x) = .ok "Grant") ∧
    (∀ x, statementLabel (.LoadDataStmt x) = .ok "LoadData") ∧
    (∀ x, statementLabel (.PrepareStmt x) = .ok "Prepare") ∧
    (∀ x, statementLabel (.RollbackStmt x) = .ok "Rollback") ∧
    (∀ x, statementLabel (.SetPwdStmt x) = .ok "SetPwd") ∧
    (∀ x, statementLabel (.ShowStmt x) = .ok "Show") ∧
    (∀ x, statementLabel (.TruncateTableStmt x) = .ok "TruncateTable") ∧
    (∀ x, statementLabel (.UpdateStmt x) = .ok "Update") ∧
    (∀ typeName ddl x, statementLabel (.other typeName ddl x) = .ok "unknown") ∧
    statementLabel .nil = .ok "unknown" := by
  simp [statementLabel]

/-- C9, counterexample: a Select node whose FROM clause is present and carries
no table-refs, and one whose single table source is a nil pointer, are not
labelled "Select-Complex": `statementLabel` panics on them. -/
theorem C9_panic_instead_of_complex :
    statementLabel (selectFrom (some ⟨none⟩)) ≠ .ok "Select-Complex" ∧
    statementLabel (selectFrom (some ⟨none⟩)) = .error .nilDereference ∧
    statementLabel (selectFrom (some ⟨some ⟨.nilTableSource, .nil, none⟩⟩)) ≠
      .ok "Select-Complex" ∧
    statementLabel (selectFrom (some ⟨some ⟨.nilTableSource, .nil, none⟩⟩)) =
      .error .nilDereference := by
  refine ⟨?_, rfl, ?_, rfl⟩ <;> simp [statementLabel, selectFrom, deref, singleTableName]

/-- C9, as amended: on a Select node whose FROM clause carries table-refs,
`statementLabel` returns "Select-Complex" unless there is no right-hand side and
the left item is a table source whose source is a table name; the left item,
which is read only when there is no right-hand side, is then not a nil
table-source pointer.  In particular the label is "Select-Complex" with a
right-hand side, with a single table source whose source is not a table name,
and with a nested join on the left.  These are all the Select nodes with a FROM
clause that are labelled "Select-Complex": with no table-refs, and with a nil
table-source pointer as only source, `statementLabel` panics. -/
theorem C9_select_complex :
    (∀ (x : ast.SelectStmt) (left right : ast.ResultSetNode) (onCond : Option String),
      (right = .nil → left ≠ .nilTableSource) →
      ¬ (right = .nil ∧ ∃ name asName, left = .TableSource (.TableName name) asName) →
      statementLabel (.SelectStmt (some { x with From := some ⟨some ⟨left, right, onCond⟩⟩ })) =
        .ok "Select-Complex") ∧
    (∀ (x : ast.SelectStmt) (left right : ast.ResultSetNode) (onCond : Option String),
      right ≠ .nil →
      statementLabel (.SelectStmt (some { x with From := some ⟨some ⟨left, right, onCond⟩⟩ })) =
        .ok "Select-Complex") ∧
    (∀ (x : ast.SelectStmt) (source : ast.ResultSetNode) (asName : String)
        (onCond : Option String),
      (∀ name, source ≠ .TableName name) →
      statementLabel (.SelectStmt (some
        { x with From := some ⟨some ⟨.TableSource source asName, .nil, onCond⟩⟩ })) =
        .ok "Select-Complex") ∧
    (∀ (x : ast.SelectStmt) (l r right : ast.ResultSetNode) (onCond : Option String),
      statementLabel (.SelectStmt (some
        { x with From := some ⟨some ⟨.Join l r, right, onCond⟩⟩ })) =
        .ok "Select-Complex") ∧
    (∀ (x : ast.SelectStmt) (From : ast.TableRefsClause), x.From = some From →
      (statementLabel (.SelectStmt (some x)) = .ok "Select-Complex" ↔
        ∃ fileds, From.TableRefs = some fileds ∧
          (fileds.Right = .nil → fileds.Left ≠ .nilTableSource) ∧
          ¬ (fileds.Right = .nil ∧
            ∃ name asName, fileds.Left = .TableSource (.TableName name) asName))) ∧
    (∀ (x : ast.SelectStmt),
      statementLabel (.SelectStmt (some { x with From := some ⟨none⟩ })) =
        .error .nilDereference) ∧
    (∀ (x : ast.SelectStmt) (onCond : Option String),
      statementLabel (.SelectStmt (some
        { x with From := some ⟨some ⟨.nilTableSource, .nil, onCond⟩⟩ })) =
        .error .nilDereference) := by
  refine ⟨?_, ?_, ?_, ?_, ?_, ?_, ?_⟩
  · intro x left right onCond hleft hshape
    by_cases hr : right = .nil
    · subst hr
      cases left with
      | TableSource source asName =>
        cases source <;> simp_all [statementLabel, deref, singleTableName]
      | nilTableSource => simp at hleft
      | _ => simp [statementLabel, deref, singleTableName]
    · simp [statementLabel, deref, singleTableName, hr]
  · intro x left right onCond hr
    simp [statementLabel, deref, singleTableName, hr]
  · intro x source asName onCond hsrc
    cases source <;> simp_all [statementLabel, deref, singleTableName]
  · intro x l r right onCond
    by_cases hr : right = .nil <;> simp [statementLabel, deref, singleTableName, hr]
  · intro x From hF
    cases hT : From.TableRefs with
    | none => simp [statementLabel, deref, hF, hT]
    | some fileds =>
      by_cases hR : fileds.Right = ast.ResultSetNode.nil
      · cases hL : fileds.Left with
        | TableSource Source asName =>
          cases Source <;> simp [statementLabel, deref, hF, hT, singleTableName, hR, hL]
        | _ => simp [statementLabel, deref, hF, hT, singleTableName, hR, hL]
      · simp [statementLabel, deref, hF, hT, singleTableName, hR]
  · intro x
    simp [statementLabel, deref]
  · intro x onCond
    simp [statementLabel, deref, singleTableName]

/-- C9, witness: a join of two tables, a sub-select as single source, and the
general case at a sub-select. -/
theorem C9_select_complex_witness :
    statementLabel (.SelectStmt (some
      { From := some ⟨some ⟨.TableSource (.TableName "t") "", .TableSource (.TableName "u") "",
          some "t.a = u.a"⟩⟩
        Distinct := false, Fields := ["*"], Where := none, GroupBy := [], Having := none
        OrderBy := [], Limit := none, text := "SELECT * FROM t JOIN u ON t.a = u.a" })) =
      .ok "Select-Complex" ∧
    statementLabel (.SelectStmt (some
      { From := some ⟨some ⟨.TableSource (.SelectStmt "SELECT a FROM u") "v", .nil, none⟩⟩
        Distinct := false, Fields := ["*"], Where := none, GroupBy := [], Having := none
        OrderBy := [], Limit := none, text := "SELECT * FROM (SELECT a FROM u) v" })) =
      .ok "Select-Complex" ∧
    statementLabel (.SelectStmt (some
      { From := some ⟨some ⟨.TableSource (.UnionStmt "SELECT 1 UNION SELECT 2") "v", .nil,
          none⟩⟩
        Distinct := true, Fields := ["*"], Where := none, GroupBy := [], Having := none
        OrderBy := [], Limit := some 1, text := "" })) =
      .ok "Select-Complex" :=
  ⟨C9_select_complex.2.1
      ⟨none, false, ["*"], none, [], none, [], none, "SELECT * FROM t JOIN u ON t.a = u.a"⟩
      (.TableSource (.TableName "t") "") (.TableSource (.TableName "u") "") (some "t.a = u.a")
      (by decide),
    C9_select_complex.2.2.1
      ⟨none, false, ["*"], none, [], none, [], none, "SELECT * FROM (SELECT a FROM u) v"⟩
      (.SelectStmt "SELECT a FROM u") "v" none (by simp),
    C9_select_complex.1 ⟨none, true, ["*"], none, [], none, [], some 1, ""⟩
      (.TableSource (.UnionStmt "SELECT 1 UNION SELECT 2") "v") .nil none
      (by simp) (by simp)⟩

/-- C10: on a Select node whose FROM clause carries table-refs with no
right-hand side and, on the left, a table source whose source is a table name,
`statementLabel` returns "Select-Simple", whatever the other fields hold. -/
theorem C10_select_simple_single_table (x : ast.SelectStmt) (name asName : String)
    (onCond : Option String) :
    statementLabel (.SelectStmt (some
      { x with From := some ⟨some ⟨.TableSource (.TableName name) asName, .nil, onCond⟩⟩ })) =
      .ok "Select-Simple" := by
  simp [statementLabel, deref, singleTableName]

/-- C11: on a Select node whose FROM clause is nil, `statementLabel` returns
"Select-Simple", whatever the other fields hold. -/
theorem C11_select_simple_without_from (x : ast.SelectStmt) :
    statementLabel (.SelectStmt (some { x with From := none })) = .ok "Select-Simple" := by
  simp [statementLabel, deref]

/-- C12: on an Insert node, `statementLabel` returns "Replace" when `IsReplace`
is true and "Insert" when it is false; the label is a function of that field
alone. -/
theorem C12_insert_or_replace :
    (∀ x : ast.InsertStmt,
      statementLabel (.InsertStmt (some { x with IsReplace := true })) = .ok "Replace") ∧
    (∀ x : ast.InsertStmt,
      statementLabel (.InsertStmt (some { x with IsReplace := false })) = .ok "Insert") ∧
    (∀ x : ast.InsertStmt,
      statementLabel (.InsertStmt (some x)) =
        .ok (if x.IsReplace = true then "Replace" else "Insert")) := by
  refine ⟨?_, ?_, ?_⟩
  · intro x
    simp [statementLabel, deref]
  · intro x
    simp [statementLabel, deref]
  · intro x
    cases h : x.IsReplace <;> simp [statementLabel, deref, h]

/-- C13, counterexample: `statementLabel` panics on a Select node whose FROM
clause carries no table-refs, on the nil pointers of the Select and Insert
types, and on a Select node whose only table source is a nil pointer. -/
theorem C13_classifier_panics :
    statementLabel (selectFrom (some ⟨none⟩)) = .error .nilDereference ∧
    statementLabel (.SelectStmt none) = .error .nilDereference ∧
    statementLabel (.InsertStmt none) = .error .nilDereference ∧
    statementLabel (selectFrom (some ⟨some ⟨.nilTableSource, .nil, none⟩⟩)) =
      .error .nilDereference :=
  ⟨rfl, rfl, rfl, rfl⟩

/-- C13, as amended: `statementLabel` returns a label exactly on the nodes in
which every pointer it reads through is non-nil; among them are every node of a
type without a case in the switch, the nil interface, and every node, nil
pointer or not, of a type with a case other than Insert and Select. -/
theorem C13_total_on_readable_nodes :
    (∀ node : ast.StmtNode,
      (∃ label, statementLabel node = .ok label) ↔ node.pointersReadable = true) ∧
    (∀ node : ast.StmtNode, node.kind = none → ∃ label, statementLabel node = .ok label) ∧
    (∀ (node : ast.StmtNode) (k : ast.Kind), node.kind = some k → k ≠ .Insert → k ≠ .Select →
      ∃ label, statementLabel node = .ok label) := by
  refine ⟨?_, ?_, ?_⟩
  · intro node
    cases node with
    | InsertStmt x =>
      cases x with
      | none => simp [statementLabel, deref, ast.StmtNode.pointersReadable]
      | some x =>
        cases h : x.IsReplace <;>
          simp [statementLabel, deref, ast.StmtNode.pointersReadable, h]
    | SelectStmt x =>
      cases x with
      | none => simp [statementLabel, deref, ast.StmtNode.pointersReadable]
      | some x =>
        cases hF : x.From with
        | none => simp [statementLabel, deref, ast.StmtNode.pointersReadable, hF]
        | some From =>
          cases hT : From.TableRefs with
          | none => simp [statementLabel, deref, ast.StmtNode.pointersReadable, hF, hT]
          | some fileds =>
            by_cases hR : fileds.Right = ast.ResultSetNode.nil
            · cases hL : fileds.Left with
              | TableSource Source asName =>
                cases Source <;>
                  simp [statementLabel, deref, ast.StmtNode.pointersReadable, hF, hT,
                    singleTableName, hR, hL]
              | _ =>
                simp [statementLabel, deref, ast.StmtNode.pointersReadable, hF, hT,
                  singleTableName, hR, hL]
            · simp [statementLabel, deref, ast.StmtNode.pointersReadable, hF, hT,
                singleTableName, hR]
    | _ => simp [statementLabel, ast.StmtNode.pointersReadable]
  · intro node hk
    cases node <;> simp [ast.StmtNode.kind] at hk <;> simp [statementLabel]
  · intro node k hk hI hS
    cases node <;> simp [ast.StmtNode.kind] at hk <;> simp_all [statementLabel]

/-- C13, witness: the node of `SELECT * FROM t` is labelled, a node of a type
unknown to the classifier is labelled, and so is a nil pointer of the Update
type. -/
theorem C13_total_on_readable_nodes_witness :
    (∃ label, statementLabel selectNode = .ok label) ∧
    (∃ label, statementLabel (.other "UseStmt" false none) = .ok label) ∧
    (∃ label, statementLabel (.UpdateStmt none) = .ok label) :=
  ⟨(C13_total_on_readable_nodes.1 selectNode).2 (by decide),
    C13_total_on_readable_nodes.2.1 (.other "UseStmt" false none) rfl,
    C13_total_on_readable_nodes.2.2 (.UpdateStmt none) .Update rfl (by decide) (by decide)⟩

/-- The label of a Select node is one of the two Select labels. -/
theorem statementLabel_select (x : Option ast.SelectStmt) (label : String)
    (h : statementLabel (.SelectStmt x) = .ok label) :
    label = "Select-Simple" ∨ label = "Select-Complex" := by
  cases x with
  | none => simp [statementLabel, deref] at h
  | some x =>
    cases hF : x.From with
    | none =>
      simp [statementLabel, deref, hF] at h
      exact Or.inl h.symm
    | some From =>
      cases hT : From.TableRefs with
      | none => simp [statementLabel, deref, hF, hT] at h
      | some fileds =>
        cases hS : singleTableName fileds with
        | error p => simp [statementLabel, deref, hF, hT, hS] at h
        | ok b =>
          cases b with
          | true =>
            simp [statementLabel, deref, hF, hT, hS] at h
            exact Or.inl h.symm
          | false =>
            simp [statementLabel, deref, hF, hT, hS] at h
            exact Or.inr h.symm

/-- The label of an Insert node is one of the two Insert labels. -/
theorem statementLabel_insert (x : Option ast.InsertStmt) (label : String)
    (h : statementLabel (.InsertStmt x) = .ok label) :
    label = "Replace" ∨ label = "Insert" := by
  cases x with
  | none => simp [statementLabel, deref] at h
  | some x =>
    cases hR : x.IsReplace with
    | true =>
      simp [statementLabel, deref, hR] at h
      exact Or.inl h.symm
    | false =>
      simp [statementLabel, deref, hR] at h
      exact Or.inr h.symm

/-- The label that the classifier gives a node of a kind stands for that kind. -/
theorem labelKind_statementLabel (node : ast.StmtNode) (k : ast.Kind) (label : String)
    (hk : node.kind = some k) (hl : statementLabel node = .ok label) :
    labelKind label = some k := by
  cases node with
  | nil => simp [ast.StmtNode.kind] at hk
  | other typeName d x => simp [ast.StmtNode.kind] at hk
  | InsertStmt x =>
    simp only [ast.StmtNode.kind, Option.some.injEq] at hk
    subst hk
    rcases statementLabel_insert x label hl with h | h <;> subst h <;> rfl
  | SelectStmt x =>
    simp only [ast.StmtNode.kind, Option.some.injEq] at hk
    subst hk
    rcases statementLabel_select x label hl with h | h <;> subst h <;> rfl
  | _ =>
    simp only [ast.StmtNode.kind, Option.some.injEq] at hk
    subst hk
    simp only [statementLabel, Except.ok.injEq] at hl
    subst hl
    rfl

/-- C14: two nodes of kinds known to the classifier that are given the same
label are of the same kind; no node of a known kind is labelled "unknown"; an
Insert node has one of the labels "Replace" and "Insert" and a Select node one
of "Select-Simple" and "Select-Complex". -/
theorem C14_labels_identify_kind :
    (∀ (n1 n2 : ast.StmtNode) (k1 k2 : ast.Kind) (label : String),
      n1.kind = some k1 → n2.kind = some k2 →
      statementLabel n1 = .ok label → statementLabel n2 = .ok label → k1 = k2) ∧
    (∀ (node : ast.StmtNode) (k : ast.Kind), node.kind = some k →
      statementLabel node ≠ .ok "unknown") ∧
    (∀ (x : Option ast.InsertStmt) (label : String),
      statementLabel (.InsertStmt x) = .ok label → label = "Replace" ∨ label = "Insert") ∧
    (∀ (x : Option ast.SelectStmt) (label : String),
      statementLabel (.SelectStmt x) = .ok label →
        label = "Select-Simple" ∨ label = "Select-Complex") := by
  refine ⟨?_, ?_, statementLabel_insert, statementLabel_select⟩
  · intro n1 n2 k1 k2 label h1 h2 l1 l2
    have e1 := labelKind_statementLabel n1 k1 label h1 l1
    have e2 := labelKind_statementLabel n2 k2 label h2 l2
    rw [e1] at e2
    exact Option.some.inj e2
  · intro node k hk hl
    have e := labelKind_statementLabel node k "unknown" hk hl
    simp [labelKind] at e

/-- C14, witness: an Insert node and a Replace node have different labels and
the same kind, and two nodes labelled "Select-Simple" are both Select nodes. -/
theorem C14_labels_identify_kind_witness :
    statementLabel (insertNode false) = .ok "Insert" ∧
    statementLabel (insertNode true) = .ok "Replace" ∧
    (insertNode false).kind = (insertNode true).kind ∧
    ast.Kind.Select = ast.Kind.Select ∧
    statementLabel createTableNode ≠ .ok "unknown" :=
  ⟨rfl, rfl, rfl,
    C14_labels_identify_kind.1 selectNode (selectFrom none) .Select .Select "Select-Simple"
      rfl rfl rfl rfl,
    C14_labels_identify_kind.2.1 createTableNode .CreateTable rfl⟩

/-! ## The counter and the statement returned -/

/-- A run of the stages neither reads nor writes the counter. -/
theorem runStages_counter (st : Stages) (node : ast.StmtNode) (is : InfoSchema) (w : World)
    (cnt : String → Nat) :
    runStages st node is { w with stmtNodeCounter := cnt } =
      ((runStages st node is w).1, { (runStages st node is w).2 with stmtNodeCounter := cnt }) := by
  unfold runStages
  rcases hP : st.Preprocess node is w.ctx w.annot with ⟨_ | e, c, a⟩
  · rcases hV : st.Validate node false a with ⟨_ | e, a2⟩
    · rcases hO : st.Optimize c node is a2 with ⟨p, _ | e, c2, a3⟩
      · simp only [World.record, hP, hV, hO]
        cases node.Text <;> rfl
      · simp only [World.record, hP, hV, hO]
    · simp only [World.record, hP, hV]
  · simp only [World.record, hP]

/-- The body of `Compile` neither reads nor writes the counter. -/
theorem compileBody_counter (st : Stages) (node : ast.StmtNode) (w : World)
    (cnt : String → Nat) :
    compileBody st node { w with stmtNodeCounter := cnt } =
      ((compileBody st node w).1, { (compileBody st node w).2 with stmtNodeCounter := cnt }) := by
  unfold compileBody resolveSchema
  cases hs : w.ctx.sessionVars.SnapshotInfoschema with
  | some snap =>
    have h := runStages_counter st node snap
      (w.record (.Infof w.ctx.sessionVars.ConnectionID snap.SchemaMetaVersion)) cnt
    simp only [hs, World.record] at h ⊢
    exact h
  | none =>
    have h := runStages_counter st node w.ctx.domainInfoSchema
      { (w.record (.DomainInfoSchema w.ctx.domainInfoSchema)).record
          (.SetSchemaVersion w.ctx.domainInfoSchema.SchemaMetaVersion) with
        ctx := binloginfo.SetSchemaVersion w.ctx w.ctx.domainInfoSchema.SchemaMetaVersion } cnt
    simp only [hs, World.record] at h ⊢
    exact h

/-- The counter after `Compile`, for a node that the classifier labels: the
counter before the call with one more under the label. -/
theorem Compile_counter (st : Stages) (node : ast.StmtNode) (w : World) (label : String)
    (hl : statementLabel node = .ok label) :
    (Compile st node w).2.stmtNodeCounter =
      fun l => if l = label then w.stmtNodeCounter l + 1 else w.stmtNodeCounter l := by
  cases hU : node.isUpdateStmt with
  | true =>
    have h := compileBody_counter st node
      (((w.record (.CounterInc label)).setInUpdateStmt true))
      (fun l => if l = label then w.stmtNodeCounter l + 1 else w.stmtNodeCounter l)
    simp only [Compile, hl, hU, if_true, World.setInUpdateStmt, World.incCounter,
      World.record] at h ⊢
    rw [h]
  | false =>
    have h := compileBody_counter st node (w.record (.CounterInc label))
      (fun l => if l = label then w.stmtNodeCounter l + 1 else w.stmtNodeCounter l)
    simp only [Compile, hl, hU, World.incCounter, World.record] at h ⊢
    simp only [Bool.false_eq_true, if_false]
    rw [h]

/-- The outcome of `Compile` does not depend on the counter. -/
theorem Compile_outcome_counter (st : Stages) (node : ast.StmtNode) (w : World)
    (cnt : String → Nat) :
    (Compile st node { w with stmtNodeCounter := cnt }).1 = (Compile st node w).1 := by
  cases hl : statementLabel node with
  | error p => simp [Compile, hl]
  | ok label =>
    cases hU : node.isUpdateStmt with
    | true =>
      have h1 := compileBody_counter st node
        (((w.record (.CounterInc label)).setInUpdateStmt true))
        (fun l => if l = label then cnt l + 1 else cnt l)
      have h2 := compileBody_counter st node
        (((w.record (.CounterInc label)).setInUpdateStmt true))
        (fun l => if l = label then w.stmtNodeCounter l + 1 else w.stmtNodeCounter l)
      simp only [Compile, hl, hU, if_true, World.setInUpdateStmt, World.incCounter,
        World.record] at h1 h2 ⊢
      rw [h1, h2]
    | false =>
      have h1 := compileBody_counter st node (w.record (.CounterInc label))
        (fun l => if l = label then cnt l + 1 else cnt l)
      have h2 := compileBody_counter st node (w.record (.CounterInc label))
        (fun l => if l = label then w.stmtNodeCounter l + 1 else w.stmtNodeCounter l)
      simp only [Compile, hl, hU, World.incCounter, World.record] at h1 h2 ⊢
      simp only [Bool.false_eq_true, if_false]
      rw [h1, h2]

/-- Whether a node passes the type assertion to `ast.DDLNode` is decided by
its dynamic type. -/
theorem isDDLNode_typeTag (n1 n2 : ast.StmtNode) (h : n1.typeTag = n2.typeTag) :
    n1.isDDLNode = n2.isDDLNode := by
  cases n1 <;> cases n2 <;> simp [ast.StmtNode.typeTag] at h <;>
    simp [ast.StmtNode.isDDLNode, h]

/-- C15: when `Compile` returns a statement, the statement holds the schema
chosen from the session as it was before the call, the plan that the one call
of `Optimize` returned, the text of the node, and an `isDDL` flag that is the
answer of the type assertion to `ast.DDLNode`; that answer is the same for any
other successful call on a node of the same dynamic type, whatever its stages,
session, schema and plan. -/
theorem C15_statement_contents (st : Stages) (node : ast.StmtNode) (w : World)
    (s : statement) (h : (Compile st node w).1.stmt? = some s) :
    s.is = (w.ctx.sessionVars.SnapshotInfoschema).getD w.ctx.domainInfoSchema ∧
    (∃ c, (callsOf st node w).filter Event.isOptimize =
      [.Optimize c node s.is s.plan none]) ∧
    node.Text = .ok s.text ∧
    s.isDDL = node.isDDLNode ∧
    (∀ (st2 : Stages) (node2 : ast.StmtNode) (w2 : World) (s2 : statement),
      (Compile st2 node2 w2).1.stmt? = some s2 → node2.typeTag = node.typeTag →
        s2.isDDL = s.isDDL) := by
  have key : ∀ (st : Stages) (node : ast.StmtNode) (w : World) (s : statement),
      (Compile st node w).1.stmt? = some s →
      s.is = (w.ctx.sessionVars.SnapshotInfoschema).getD w.ctx.domainInfoSchema ∧
      (∃ c, (callsOf st node w).filter Event.isOptimize =
        [.Optimize c node s.is s.plan none]) ∧
      node.Text = .ok s.text ∧ s.isDDL = node.isDDLNode := by
    intro st node w s h
    have hr := Compile_run st node w
    generalize callsOf st node w = evs at hr ⊢
    generalize (Compile st node w).1 = out at h hr ⊢
    cases hr with
    | classifierPanicked p hl => simp [Outcome.stmt?] at h
    | pinned label snap evs out hl hs hr =>
      cases hr <;> simp [Outcome.stmt?] at h
      subst h
      simp [Event.isOptimize, hs, List.filter, *]
    | live label evs out hl hs hr =>
      cases hr <;> simp [Outcome.stmt?] at h
      subst h
      simp [Event.isOptimize, hs, List.filter, *]
  obtain ⟨h1, h2, h3, h4⟩ := key st node w s h
  refine ⟨h1, h2, h3, h4, ?_⟩
  intro st2 node2 w2 s2 hs2 htag
  obtain ⟨_, _, _, h5⟩ := key st2 node2 w2 s2 hs2
  rw [h4, h5]
  exact isDDLNode_typeTag node2 node htag

/-- C15, witness: the statement compiled from `CREATE TABLE t (a INT)`. -/
theorem C15_statement_contents_witness :
    (Compile okStages createTableNode (sessionWorld false none)).1.stmt? =
      some ⟨⟨1, 42⟩, ⟨7⟩, "CREATE TABLE t (a INT)", true⟩ ∧
    createTableNode.Text = .ok "CREATE TABLE t (a INT)" :=
  ⟨by decide,
    (C15_statement_contents okStages createTableNode (sessionWorld false none)
      ⟨⟨1, 42⟩, ⟨7⟩, "CREATE TABLE t (a INT)", true⟩ (by decide)).2.2.1⟩

/-- C16, counterexample: on the nil pointer of the CreateTable type the three
stages succeed, the counter of "CreateTable" goes up by one, and `Compile`
panics at the read of the text, so that no statement is returned. -/
theorem C16_no_statement_on_nil_create_table :
    statementLabel (.CreateTableStmt none) = .ok "CreateTable" ∧
    (callsOf okStages (.CreateTableStmt none) (sessionWorld false none)).any
      Event.preprocessSucceeded = true ∧
    (callsOf okStages (.CreateTableStmt none) (sessionWorld false none)).any
      Event.validateSucceeded = true ∧
    (callsOf okStages (.CreateTableStmt none) (sessionWorld false none)).any
      Event.optimizeSucceeded = true ∧
    (Compile okStages (.CreateTableStmt none) (sessionWorld false none)).2.stmtNodeCounter
      "CreateTable" = 1 ∧
    (Compile okStages (.CreateTableStmt none) (sessionWorld false none)).1 =
      .panicked .nilDereference :=
  ⟨rfl, by decide, by decide, by decide, by decide, by decide⟩

/-- C16, as amended: when the three stages succeed, `Compile` of a CreateTable
node adds one to the counter of the label "CreateTable"; when the node is a
non-nil pointer it returns a statement whose `isDDL` flag is true, with the nil
error, and when the node is the nil pointer it panics at the read of the
text. -/
theorem C16_create_table_end_to_end (st : Stages) (x : Option ast.Stmt) (w : World)
    (hP : (callsOf st (.CreateTableStmt x) w).any Event.preprocessSucceeded = true)
    (hV : (callsOf st (.CreateTableStmt x) w).any Event.validateSucceeded = true)
    (hO : (callsOf st (.CreateTableStmt x) w).any Event.optimizeSucceeded = true) :
    (Compile st (.CreateTableStmt x) w).2.stmtNodeCounter "CreateTable" =
      w.stmtNodeCounter "CreateTable" + 1 ∧
    (∀ body, x = some body →
      ∃ s, (Compile st (.CreateTableStmt x) w).1 = .returned (some s) none ∧
        s.isDDL = true) ∧
    (x = none → (Compile st (.CreateTableStmt x) w).1 = .panicked .nilDereference) := by
  refine ⟨?_, ?_, ?_⟩
  · rw [Compile_counter st (.CreateTableStmt x) w "CreateTable" rfl]
    simp
  · intro body hx
    subst hx
    have hr := Compile_run st (.CreateTableStmt (some body)) w
    generalize callsOf st (.CreateTableStmt (some body)) w = evs at hP hV hO hr ⊢
    generalize (Compile st (.CreateTableStmt (some body)) w).1 = out at hr ⊢
    cases hr with
    | classifierPanicked p hl => simp at hP
    | pinned label snap evs out hl hs hr =>
      cases hr <;>
        simp_all [Event.preprocessSucceeded, Event.validateSucceeded,
          Event.optimizeSucceeded, ast.StmtNode.Text, ast.StmtNode.isDDLNode]
    | live label evs out hl hs hr =>
      cases hr <;>
        simp_all [Event.preprocessSucceeded, Event.validateSucceeded,
          Event.optimizeSucceeded, ast.StmtNode.Text, ast.StmtNode.isDDLNode]
  · intro hx
    subst hx
    have hr := Compile_run st (.CreateTableStmt none) w
    generalize callsOf st (.CreateTableStmt none) w = evs at hP hV hO hr ⊢
    generalize (Compile st (.CreateTableStmt none) w).1 = out at hr ⊢
    cases hr with
    | classifierPanicked p hl => simp at hP
    | pinned label snap evs out hl hs hr =>
      cases hr <;>
        simp_all [Event.preprocessSucceeded, Event.validateSucceeded,
          Event.optimizeSucceeded, ast.StmtNode.Text]
    | live label evs out hl hs hr =>
      cases hr <;>
        simp_all [Event.preprocessSucceeded, Event.validateSucceeded,
          Event.optimizeSucceeded, ast.StmtNode.Text]

/-- C16, witness: `CREATE TABLE t (a INT)` compiled with stages that succeed. -/
theorem C16_create_table_end_to_end_witness :
    (Compile okStages createTableNode (sessionWorld false none)).2.stmtNodeCounter
        "CreateTable" = 1 ∧
    ∃ s, (Compile okStages createTableNode (sessionWorld false none)).1 =
        .returned (some s) none ∧ s.isDDL = true := by
  have h := C16_create_table_end_to_end okStages (some ⟨"CREATE TABLE t (a INT)"⟩)
    (sessionWorld false none) (by decide) (by decide) (by decide)
  exact ⟨h.1, h.2.1 ⟨"CREATE TABLE t (a INT)"⟩ rfl⟩

/-! ## The order of the calls -/

/-- C17: the stage calls of a call of `Compile`, in order, are one of: none,
when the classifier panics; `Preprocess` alone, failed; `Preprocess` succeeded
then `Validate` failed; both succeeded then `Optimize` failed; all three
succeeded.  Every call is made on the node, `Validate` with `false`, and
`Preprocess` and `Optimize` with one schema.  After a failed stage `Compile`
returns the error of that stage under a trace wrapper, which keeps its root
cause; after three successes it returns no error. -/
theorem C17_stage_sequence (st : Stages) (node : ast.StmtNode) (w : World) :
    (((callsOf st node w).filter Event.isStage = [] ∧
        ∃ p, (Compile st node w).1 = .panicked p) ∨
      (∃ is c e, (callsOf st node w).filter Event.isStage =
          [.Preprocess node is c (some e)] ∧
        (Compile st node w).1 = .returned none (some (errors.Trace 133 e))) ∨
      (∃ is c c1 e, (callsOf st node w).filter Event.isStage =
          [.Preprocess node is c none, .Validate node false c1 (some e)] ∧
        (Compile st node w).1 = .returned none (some (errors.Trace 137 e))) ∨
      (∃ is c c1 p e, (callsOf st node w).filter Event.isStage =
          [.Preprocess node is c none, .Validate node false c1 none,
            .Optimize c1 node is p (some e)] ∧
        (Compile st node w).1 = .returned none (some (errors.Trace 141 e))) ∨
      (∃ is c c1 p, (callsOf st node w).filter Event.isStage =
          [.Preprocess node is c none, .Validate node false c1 none,
            .Optimize c1 node is p none] ∧
        (Compile st node w).1.err? = none)) ∧
    (∀ (line : Nat) (e : Error), errors.Cause (errors.Trace line e) = errors.Cause e ∧
      (errors.Trace line e).previous? = some e) := by
  refine ⟨?_, fun _ _ => ⟨rfl, rfl⟩⟩
  have hr := Compile_run st node w
  generalize callsOf st node w = evs at hr ⊢
  generalize (Compile st node w).1 = out at hr ⊢
  cases hr with
  | classifierPanicked p hl => exact Or.inl ⟨by simp, p, rfl⟩
  | pinned label snap evs out hl hs hr =>
    cases hr with
    | preprocessFailed e =>
      right; left
      exact ⟨snap, ctxAtPreprocess node w, e, by simp [List.filter, Event.isStage], rfl⟩
    | validateFailed c1 e =>
      right; right; left
      exact ⟨snap, ctxAtPreprocess node w, c1, e, by simp [List.filter, Event.isStage], rfl⟩
    | optimizeFailed c1 p e =>
      right; right; right; left
      exact ⟨snap, ctxAtPreprocess node w, c1, p, e, by simp [List.filter, Event.isStage], rfl⟩
    | assembled c1 p text ht =>
      right; right; right; right
      exact ⟨snap, ctxAtPreprocess node w, c1, p, by simp [List.filter, Event.isStage], rfl⟩
    | textPanicked c1 p pn ht =>
      right; right; right; right
      exact ⟨snap, ctxAtPreprocess node w, c1, p, by simp [List.filter, Event.isStage], rfl⟩
  | live label evs out hl hs hr =>
    cases hr with
    | preprocessFailed e =>
      right; left
      exact ⟨w.ctx.domainInfoSchema, ctxAtPreprocess node w, e, by simp [List.filter, Event.isStage], rfl⟩
    | validateFailed c1 e =>
      right; right; left
      exact ⟨w.ctx.domainInfoSchema, ctxAtPreprocess node w, c1, e, by simp [List.filter, Event.isStage], rfl⟩
    | optimizeFailed c1 p e =>
      right; right; right; left
      exact ⟨w.ctx.domainInfoSchema, ctxAtPreprocess node w, c1, p, e, by simp [List.filter, Event.isStage], rfl⟩
    | assembled c1 p text ht =>
      right; right; right; right
      exact ⟨w.ctx.domainInfoSchema, ctxAtPreprocess node w, c1, p, by simp [List.filter, Event.isStage], rfl⟩
    | textPanicked c1 p pn ht =>
      right; right; right; right
      exact ⟨w.ctx.domainInfoSchema, ctxAtPreprocess node w, c1, p, by simp [List.filter, Event.isStage], rfl⟩

/-- C18, counterexample: `Compile` of the nil pointer of the Select type panics
in the classifier, at line 114, makes no call, and leaves the counter of every
label as it was. -/
theorem C18_nothing_counted_on_nil_select :
    (Compile failingPreprocess (.SelectStmt none) (sessionWorld false none)).1 =
      .panicked .nilDereference ∧
    callsOf failingPreprocess (.SelectStmt none) (sessionWorld false none) = [] ∧
    (Compile failingPreprocess (.SelectStmt none) (sessionWorld false none)).2.stmtNodeCounter =
      (sessionWorld false none).stmtNodeCounter :=
  ⟨rfl, rfl, rfl⟩

/-- C18, as amended: for a node that the classifier labels, `Compile` leaves
the counter of that label one higher and the counter of every other label as
it was; the increment is the first call of the run and the only increment, so
it comes before every stage and on every exit; for a node on which the
classifier panics, `Compile` panics, makes no call and leaves the counter as it
was; and the outcome of `Compile` is the same whatever the counter holds. -/
theorem C18_counter_incremented_once (st : Stages) (node : ast.StmtNode) (w : World) :
    (∀ label, statementLabel node = .ok label →
      (∀ l, (Compile st node w).2.stmtNodeCounter l =
        w.stmtNodeCounter l + (if l = label then 1 else 0)) ∧
      (∃ rest, callsOf st node w = .CounterInc label :: rest ∧
        ∀ e ∈ rest, e.isCounterInc = false)) ∧
    (∀ p, statementLabel node = .error p →
      (Compile st node w).1 = .panicked p ∧ callsOf st node w = [] ∧
        (Compile st node w).2.stmtNodeCounter = w.stmtNodeCounter) ∧
    (∀ cnt : String → Nat,
      (Compile st node { w with stmtNodeCounter := cnt }).1 = (Compile st node w).1) := by
  refine ⟨fun label hl => ⟨?_, ?_⟩, fun p hl => ?_, Compile_outcome_counter st node w⟩
  · intro l
    rw [Compile_counter st node w label hl]
    by_cases h : l = label <;> simp [h]
  · have hr := Compile_run st node w
    generalize callsOf st node w = evs at hr ⊢
    generalize (Compile st node w).1 = out at hr ⊢
    cases hr with
    | classifierPanicked p hl2 => simp [hl] at hl2
    | pinned label2 snap evs out hl2 hs hr =>
      have hlb : label2 = label := by
        have := hl2.symm.trans hl
        simpa using this
      subst hlb
      cases hr <;> simp [Event.isCounterInc]
    | live label2 evs out hl2 hs hr =>
      have hlb : label2 = label := by
        have := hl2.symm.trans hl
        simpa using this
      subst hlb
      cases hr <;> simp [Event.isCounterInc]
  · simp [callsOf, Compile, hl]

/-- C18, witness: a select statement whose preprocessing fails is counted once
under "Select-Simple" and not under "Select-Complex". -/
theorem C18_counter_incremented_once_witness :
    statementLabel selectNode = .ok "Select-Simple" ∧
    (Compile failingPreprocess selectNode (sessionWorld false none)).2.stmtNodeCounter
      "Select-Simple" = 1 ∧
    (Compile failingPreprocess selectNode (sessionWorld false none)).2.stmtNodeCounter
      "Select-Complex" = 0 :=
  ⟨rfl,
    ((C18_counter_incremented_once failingPreprocess selectNode (sessionWorld false none)).1
      "Select-Simple" rfl).1 "Select-Simple",
    ((C18_counter_incremented_once failingPreprocess selectNode (sessionWorld false none)).1
      "Select-Simple" rfl).1 "Select-Complex"⟩

/-! ## The flag during the call -/

/-- The sessions that the stages of one run are called in carry the flag of
the session at the start of the run, when `Preprocess` leaves the flag alone. -/
theorem runStages_sessions (st : Stages) (node : ast.StmtNode) (is : InfoSchema) (w : World)
    (hP : st.preprocessKeepsFlag) :
    ∃ evs, (runStages st node is w).2.calls = w.calls ++ evs ∧
      ∀ e ∈ evs, ∀ c, e.session? = some c →
        c.sessionVars.InUpdateStmt = w.ctx.sessionVars.InUpdateStmt := by
  unfold runStages
  have hk := hP node is w.ctx w.annot
  rcases hPr : st.Preprocess node is w.ctx w.annot with ⟨_ | e, c, a⟩
  · rw [hPr] at hk
    simp only at hk
    rcases hV : st.Validate node false a with ⟨_ | e, a2⟩
    · rcases hO : st.Optimize c node is a2 with ⟨p, _ | e, c2, a3⟩
      · refine ⟨[.Preprocess node is w.ctx none, .Validate node false c none,
          .Optimize c node is p none], ?_, ?_⟩
        · simp only [World.record, hV, hO]
          cases node.Text <;> simp
        · intro e he c' hc
          simp only [List.mem_cons, List.mem_singleton, List.not_mem_nil, or_false] at he
          rcases he with rfl | rfl | rfl <;> simp [Event.session?] at hc <;> subst hc <;>
            first | rfl | exact hk
      · refine ⟨[.Preprocess node is w.ctx none, .Validate node false c none,
          .Optimize c node is p (some e)], ?_, ?_⟩
        · simp [World.record, hV, hO]
        · intro e he c' hc
          simp only [List.mem_cons, List.mem_singleton, List.not_mem_nil, or_false] at he
          rcases he with rfl | rfl | rfl <;> simp [Event.session?] at hc <;> subst hc <;>
            first | rfl | exact hk
    · refine ⟨[.Preprocess node is w.ctx none, .Validate node false c (some e)], ?_, ?_⟩
      · simp [World.record, hV]
      · intro e he c' hc
        simp only [List.mem_cons, List.mem_singleton, List.not_mem_nil, or_false] at he
        rcases he with rfl | rfl <;> simp [Event.session?] at hc <;> subst hc <;>
          first | rfl | exact hk
  · refine ⟨[.Preprocess node is w.ctx (some e)], ?_, ?_⟩
    · simp [World.record]
    · intro e he c' hc
      simp only [List.mem_singleton] at he
      subst he
      simp [Event.session?] at hc
      subst hc
      rfl

/-- The session after one run of the stages carries the flag of the session at
the start of the run, when `Preprocess` and `Optimize` leave the flag alone. -/
theorem runStages_flag (st : Stages) (node : ast.StmtNode) (is : InfoSchema) (w : World)
    (hP : st.preprocessKeepsFlag) (hO : st.optimizeKeepsFlag) :
    (runStages st node is w).2.ctx.sessionVars.InUpdateStmt =
      w.ctx.sessionVars.InUpdateStmt := by
  unfold runStages
  have hk := hP node is w.ctx w.annot
  rcases hPr : st.Preprocess node is w.ctx w.annot with ⟨_ | e, c, a⟩
  · rw [hPr] at hk
    simp only at hk
    rcases hV : st.Validate node false a with ⟨_ | e, a2⟩
    · have hk2 := hO c node is a2
      rcases hOp : st.Optimize c node is a2 with ⟨p, _ | e, c2, a3⟩
      · rw [hOp] at hk2
        simp only at hk2
        simp only [World.record, hV, hOp]
        cases node.Text <;> exact hk2.trans hk
      · rw [hOp] at hk2
        simp only at hk2
        simp only [World.record, hV, hOp]
        exact hk2.trans hk
    · simp only [World.record, hV]
      exact hk
  · rw [hPr] at hk
    simp only at hk
    simp only [World.record]
    exact hk

/-- A call of `Compile` on a node that the classifier labels is a run of the
stages from a world whose session is the one handed to `Preprocess` and whose
record has grown by calls that are not stage calls; for a node that is not an
update statement the session after `Compile` is the one the stages leave. -/
theorem Compile_decompose (st : Stages) (node : ast.StmtNode) (w : World) (label : String)
    (hl : statementLabel node = .ok label) :
    ∃ (is : InfoSchema) (w1 : World) (pre : List Event),
      w1.calls = w.calls ++ pre ∧ (∀ e ∈ pre, e.session? = none) ∧
      w1.ctx = ctxAtPreprocess node w ∧
      (Compile st node w).2.calls = (runStages st node is w1).2.calls ∧
      (node.isUpdateStmt = false →
        (Compile st node w).2.ctx = (runStages st node is w1).2.ctx) := by
  cases hU : node.isUpdateStmt with
  | true =>
    cases hs : w.ctx.sessionVars.SnapshotInfoschema with
    | some snap =>
      refine ⟨snap,
        ((((w.record (.CounterInc label)).incCounter label).setInUpdateStmt true).record
          (.Infof w.ctx.sessionVars.ConnectionID snap.SchemaMetaVersion)),
        [.CounterInc label, .Infof w.ctx.sessionVars.ConnectionID snap.SchemaMetaVersion],
        ?_, ?_, ?_, ?_, ?_⟩
      · simp [World.record, World.incCounter, World.setInUpdateStmt]
      · simp [Event.session?]
      · simp [ctxAtPreprocess, hU, hs, World.record, World.incCounter, World.setInUpdateStmt]
      · simp [Compile, hl, hU, compileBody, resolveSchema, hs, World.record, World.incCounter,
          World.setInUpdateStmt]
      · intro h
        simp at h
    | none =>
      refine ⟨w.ctx.domainInfoSchema,
        { ((((w.record (.CounterInc label)).incCounter label).setInUpdateStmt true).record
            (.DomainInfoSchema w.ctx.domainInfoSchema)).record
            (.SetSchemaVersion w.ctx.domainInfoSchema.SchemaMetaVersion) with
          ctx := binloginfo.SetSchemaVersion
            (((w.record (.CounterInc label)).incCounter label).setInUpdateStmt true).ctx
            w.ctx.domainInfoSchema.SchemaMetaVersion },
        [.CounterInc label, .DomainInfoSchema w.ctx.domainInfoSchema,
          .SetSchemaVersion w.ctx.domainInfoSchema.SchemaMetaVersion],
        ?_, ?_, ?_, ?_, ?_⟩
      · simp [World.record, World.incCounter, World.setInUpdateStmt]
      · simp [Event.session?]
      · simp [ctxAtPreprocess, hU, hs, World.record, World.incCounter, World.setInUpdateStmt]
      · simp [Compile, hl, hU, compileBody, resolveSchema, hs, World.record, World.incCounter,
          World.setInUpdateStmt]
      · intro h
        simp at h
  | false =>
    cases hs : w.ctx.sessionVars.SnapshotInfoschema with
    | some snap =>
      refine ⟨snap,
        (((w.record (.CounterInc label)).incCounter label).record
          (.Infof w.ctx.sessionVars.ConnectionID snap.SchemaMetaVersion)),
        [.CounterInc label, .Infof w.ctx.sessionVars.ConnectionID snap.SchemaMetaVersion],
        ?_, ?_, ?_, ?_, ?_⟩
      · simp [World.record, World.incCounter]
      · simp [Event.session?]
      · simp [ctxAtPreprocess, hU, hs, World.record, World.incCounter]
      · simp [Compile, hl, hU, compileBody, resolveSchema, hs, World.record, World.incCounter]
      · intro _
        simp [Compile, hl, hU, compileBody, resolveSchema, hs, World.record, World.incCounter]
    | none =>
      refine ⟨w.ctx.domainInfoSchema,
        { (((w.record (.CounterInc label)).incCounter label).record
            (.DomainInfoSchema w.ctx.domainInfoSchema)).record
            (.SetSchemaVersion w.ctx.domainInfoSchema.SchemaMetaVersion) with
          ctx := binloginfo.SetSchemaVersion w.ctx w.ctx.domainInfoSchema.SchemaMetaVersion },
        [.CounterInc label, .DomainInfoSchema w.ctx.domainInfoSchema,
          .SetSchemaVersion w.ctx.domainInfoSchema.SchemaMetaVersion],
        ?_, ?_, ?_, ?_, ?_⟩
      · simp [World.record, World.incCounter]
      · simp [Event.session?]
      · simp [ctxAtPreprocess, hU, hs, World.record, World.incCounter]
      · simp [Compile, hl, hU, compileBody, resolveSchema, hs, World.record, World.incCounter]
      · intro _
        simp [Compile, hl, hU, compileBody, resolveSchema, hs, World.record, World.incCounter]

/-- The sessions that the stages are called in during a call of `Compile`
carry the flag of the session handed to `Preprocess`, when `Preprocess` leaves
the flag alone. -/
theorem Compile_sessions (st : Stages) (node : ast.StmtNode) (w : World)
    (hP : st.preprocessKeepsFlag) :
    ∀ e ∈ callsOf st node w, ∀ c, e.session? = some c →
      c.sessionVars.InUpdateStmt = (ctxAtPreprocess node w).sessionVars.InUpdateStmt := by
  cases hl : statementLabel node with
  | error p =>
    intro e he
    simp [callsOf, Compile, hl] at he
  | ok label =>
    obtain ⟨is, w1, pre, h1, h2, h3, h4, _⟩ := Compile_decompose st node w label hl
    obtain ⟨evs, h5, h6⟩ := runStages_sessions st node is w1 hP
    have hc : callsOf st node w = pre ++ evs := by
      simp [callsOf, h4, h5, h1]
    intro e he c hcs
    rw [hc, List.mem_append] at he
    rcases he with he | he
    · rw [h2 e he] at hcs
      simp at hcs
    · rw [← h3]
      exact h6 e he c hcs

/-- The session in every `Preprocess` call of `Compile` is `ctxAtPreprocess`. -/
theorem Compile_preprocess_ctx (st : Stages) (node : ast.StmtNode) (w : World)
    (n : ast.StmtNode) (is : InfoSchema) (c : Context) (err : Option Error)
    (h : Event.Preprocess n is c err ∈ callsOf st node w) :
    c = ctxAtPreprocess node w := by
  have hr := Compile_run st node w
  generalize callsOf st node w = evs at h hr
  generalize (Compile st node w).1 = out at hr
  cases hr with
  | classifierPanicked p hl => simp at h
  | pinned label snap evs out hl hs hr => cases hr <;> simp_all
  | live label evs out hl hs hr => cases hr <;> simp_all

/-- The flag in the session handed to `Preprocess`: set for an update
statement, otherwise as it is before the call. -/
theorem ctxAtPreprocess_flag (node : ast.StmtNode) (w : World) :
    (ctxAtPreprocess node w).sessionVars.InUpdateStmt =
      (node.isUpdateStmt || w.ctx.sessionVars.InUpdateStmt) := by
  cases hU : node.isUpdateStmt <;>
    cases hs : w.ctx.sessionVars.SnapshotInfoschema <;>
    simp [ctxAtPreprocess, hU, hs, World.setInUpdateStmt, binloginfo.SetSchemaVersion]

/-- The calls of one run of the stages, each with the session at the call:
they are stage calls, and the session at each is the one the call carries. -/
theorem runStages_seen (st : Stages) (node : ast.StmtNode) (is : InfoSchema) (w : World) :
    ∃ evs : List (Event × Context),
      (runStages st node is w).2.seen = w.seen ++ evs ∧
      (runStages st node is w).2.calls = w.calls ++ evs.map Prod.fst ∧
      ∀ p ∈ evs, p.1.isStage = true ∧ p.1.session? = some p.2 := by
  unfold runStages
  rcases hPr : st.Preprocess node is w.ctx w.annot with ⟨_ | e, c, a⟩
  · rcases hV : st.Validate node false a with ⟨_ | e, a2⟩
    · rcases hO : st.Optimize c node is a2 with ⟨p, _ | e, c2, a3⟩
      · refine ⟨[(.Preprocess node is w.ctx none, w.ctx), (.Validate node false c none, c),
          (.Optimize c node is p none, c)], ?_, ?_, ?_⟩
        · simp only [World.record, hV, hO]
          cases node.Text <;> simp
        · simp only [World.record, hV, hO]
          cases node.Text <;> simp
        · simp [Event.isStage, Event.session?]
      · refine ⟨[(.Preprocess node is w.ctx none, w.ctx), (.Validate node false c none, c),
          (.Optimize c node is p (some e), c)], ?_, ?_, ?_⟩
        · simp [World.record, hV, hO]
        · simp [World.record, hV, hO]
        · simp [Event.isStage, Event.session?]
    · refine ⟨[(.Preprocess node is w.ctx none, w.ctx), (.Validate node false c (some e), c)],
        ?_, ?_, ?_⟩
      · simp [World.record, hV]
      · simp [World.record, hV]
      · simp [Event.isStage, Event.session?]
  · refine ⟨[(.Preprocess node is w.ctx (some e), w.ctx)], ?_, ?_, ?_⟩
    · simp [World.record]
    · simp [World.record]
    · simp [Event.isStage, Event.session?]

/-- A call of `Compile` on an Update node is a run of the stages from a world
whose record has grown by the increment of the counter and the calls of the
choice of the schema; the session at each of the latter has the flag set. -/
theorem Compile_update_seen (st : Stages) (x : Option ast.Stmt) (w : World) :
    ∃ (is : InfoSchema) (w1 : World) (pre : List (Event × Context)),
      w1.seen = w.seen ++ pre ∧ w1.calls = w.calls ++ pre.map Prod.fst ∧
      (∀ p ∈ pre, p.1.isStage = false ∧ p.1.session? = none ∧
        (p.1.isCounterInc = false → p.2.sessionVars.InUpdateStmt = true)) ∧
      (Compile st (.UpdateStmt x) w).2.seen = (runStages st (.UpdateStmt x) is w1).2.seen ∧
      (Compile st (.UpdateStmt x) w).2.calls = (runStages st (.UpdateStmt x) is w1).2.calls := by
  cases hs : w.ctx.sessionVars.SnapshotInfoschema with
  | some snap =>
    refine ⟨snap,
      ((((w.record (.CounterInc "Update")).incCounter "Update").setInUpdateStmt true).record
        (.Infof w.ctx.sessionVars.ConnectionID snap.SchemaMetaVersion)),
      [(.CounterInc "Update", w.ctx),
        (.Infof w.ctx.sessionVars.ConnectionID snap.SchemaMetaVersion,
          (w.setInUpdateStmt true).ctx)],
      ?_, ?_, ?_, ?_, ?_⟩
    · simp [World.record, World.incCounter, World.setInUpdateStmt]
    · simp [World.record, World.incCounter, World.setInUpdateStmt]
    · simp [Event.isStage, Event.session?, Event.isCounterInc, World.setInUpdateStmt]
    · simp [Compile, statementLabel, ast.StmtNode.isUpdateStmt, compileBody, resolveSchema, hs,
        World.record, World.incCounter, World.setInUpdateStmt]
    · simp [Compile, statementLabel, ast.StmtNode.isUpdateStmt, compileBody, resolveSchema, hs,
        World.record, World.incCounter, World.setInUpdateStmt]
  | none =>
    refine ⟨w.ctx.domainInfoSchema,
      { ((((w.record (.CounterInc "Update")).incCounter "Update").setInUpdateStmt true).record
          (.DomainInfoSchema w.ctx.domainInfoSchema)).record
          (.SetSchemaVersion w.ctx.domainInfoSchema.SchemaMetaVersion) with
        ctx := binloginfo.SetSchemaVersion
          (((w.record (.CounterInc "Update")).incCounter "Update").setInUpdateStmt true).ctx
          w.ctx.domainInfoSchema.SchemaMetaVersion },
      [(.CounterInc "Update", w.ctx),
        (.DomainInfoSchema w.ctx.domainInfoSchema, (w.setInUpdateStmt true).ctx),
        (.SetSchemaVersion w.ctx.domainInfoSchema.SchemaMetaVersion,
          (w.setInUpdateStmt true).ctx)],
      ?_, ?_, ?_, ?_, ?_⟩
    · simp [World.record, World.incCounter, World.setInUpdateStmt]
    · simp [World.record, World.incCounter, World.setInUpdateStmt]
    · simp [Event.isStage, Event.session?, Event.isCounterInc, World.setInUpdateStmt]
    · simp [Compile, statementLabel, ast.StmtNode.isUpdateStmt, compileBody, resolveSchema, hs,
        World.record, World.incCounter, World.setInUpdateStmt]
    · simp [Compile, statementLabel, ast.StmtNode.isUpdateStmt, compileBody, resolveSchema, hs,
        World.record, World.incCounter, World.setInUpdateStmt]

/-- The calls of `Compile` on an Update node, each with the session at the
call: the calls before the stages, where the session has the flag set once the
counter is passed, then the stage calls, which carry their session. -/
theorem Compile_update_seenOf (st : Stages) (x : Option ast.Stmt) (w : World) :
    ∃ pre evs : List (Event × Context),
      seenOf st (.UpdateStmt x) w = pre ++ evs ∧
      callsOf st (.UpdateStmt x) w = (pre ++ evs).map Prod.fst ∧
      (∀ p ∈ pre, p.1.isStage = false ∧ p.1.session? = none ∧
        (p.1.isCounterInc = false → p.2.sessionVars.InUpdateStmt = true)) ∧
      (∀ p ∈ evs, p.1.isStage = true ∧ p.1.session? = some p.2) := by
  obtain ⟨is, w1, pre, h1, h2, h3, h4, h5⟩ := Compile_update_seen st x w
  obtain ⟨evs, h6, h7, h8⟩ := runStages_seen st (.UpdateStmt x) is w1
  refine ⟨pre, evs, ?_, ?_, h3, h8⟩
  · simp [seenOf, h4, h6, h1]
  · simp [callsOf, h5, h7, h2]

/-- C19, counterexample: with a `Preprocess` that hands the session back
with the flag cleared, `Validate` and `Optimize` are called on an update
statement in a session whose flag is false. -/
theorem C19_flag_cleared_by_preprocess :
    Event.Validate updateNode false ⟨⟨false, none, 3⟩, ⟨1, 42⟩, some 42⟩ none ∈
      callsOf flagClearingStages updateNode (sessionWorld true none) ∧
    Event.Optimize ⟨⟨false, none, 3⟩, ⟨1, 42⟩, some 42⟩ updateNode ⟨1, 42⟩ ⟨7⟩ none ∈
      callsOf flagClearingStages updateNode (sessionWorld true none) := by
  decide

/-- C19, as amended: in a call of `Compile` on an Update node, whatever the
flag was before and whatever the stages do, the flag is set before the schema is
chosen: the session has the flag set at every call made between the increment of
the counter and the first stage, and in the call of `Preprocess`.  When
`Preprocess` hands the session back with the flag as it found it, the session
has the flag set at every call after the increment of the counter, the calls
of `Validate` and `Optimize` included.  The flag is false once `Compile` is
left.  The sessions are those of `seenOf`, which lists the calls of `callsOf`
and agrees with the session each stage call carries. -/
theorem C19_stages_see_flag_set (st : Stages) (x : Option ast.Stmt) (w : World) :
    (seenOf st (.UpdateStmt x) w).map Prod.fst = callsOf st (.UpdateStmt x) w ∧
    (∀ p ∈ seenOf st (.UpdateStmt x) w, ∀ c, p.1.session? = some c → p.2 = c) ∧
    (∀ p ∈ seenOf st (.UpdateStmt x) w, p.1.isCounterInc = false → p.1.isStage = false →
      p.2.sessionVars.InUpdateStmt = true) ∧
    (∀ n is c err, Event.Preprocess n is c err ∈ callsOf st (.UpdateStmt x) w →
      c.sessionVars.InUpdateStmt = true) ∧
    (st.preprocessKeepsFlag →
      ∀ p ∈ seenOf st (.UpdateStmt x) w, p.1.isCounterInc = false →
        p.2.sessionVars.InUpdateStmt = true) ∧
    (st.preprocessKeepsFlag →
      ∀ e ∈ callsOf st (.UpdateStmt x) w, ∀ c, e.session? = some c →
        c.sessionVars.InUpdateStmt = true) ∧
    (Compile st (.UpdateStmt x) w).2.ctx.sessionVars.InUpdateStmt = false := by
  have hf : (ctxAtPreprocess (.UpdateStmt x) w).sessionVars.InUpdateStmt = true := by
    rw [ctxAtPreprocess_flag]
    simp [ast.StmtNode.isUpdateStmt]
  obtain ⟨pre, evs, h1, h2, h3, h4⟩ := Compile_update_seenOf st x w
  have hstage : st.preprocessKeepsFlag →
      ∀ e ∈ callsOf st (.UpdateStmt x) w, ∀ c, e.session? = some c →
        c.sessionVars.InUpdateStmt = true := by
    intro hP e he c hc
    rw [Compile_sessions st (.UpdateStmt x) w hP e he c hc]
    exact hf
  refine ⟨?_, ?_, ?_, ?_, ?_, hstage, ?_⟩
  · rw [h1, h2]
  · intro p hp c hc
    rw [h1, List.mem_append] at hp
    rcases hp with hp | hp
    · rw [(h3 p hp).2.1] at hc
      simp at hc
    · rw [(h4 p hp).2] at hc
      exact Option.some.inj hc
  · intro p hp hc hs
    rw [h1, List.mem_append] at hp
    rcases hp with hp | hp
    · exact (h3 p hp).2.2 hc
    · rw [(h4 p hp).1] at hs
      simp at hs
  · intro n is c err h
    rw [Compile_preprocess_ctx st (.UpdateStmt x) w n is c err h]
    exact hf
  · intro hP p hp hc
    have hp2 := hp
    rw [h1, List.mem_append] at hp
    rcases hp with hp | hp
    · exact (h3 p hp).2.2 hc
    · have hmem : p.1 ∈ callsOf st (.UpdateStmt x) w := by
        rw [h2, ← h1]
        exact List.mem_map_of_mem Prod.fst hp2
      exact hstage hP p.1 hmem p.2 (h4 p hp).2
  · simp only [Compile, statementLabel, ast.StmtNode.isUpdateStmt, if_true,
      World.setInUpdateStmt]

/-- C19, witness: with the flag clear before the call, the calls of an update
statement after the increment of the counter, the fetch of the schema of the
domain, the recorder and the three stages, are each made in a session whose
flag is set. -/
theorem C19_stages_see_flag_set_witness :
    (sessionWorld false none).ctx.sessionVars.InUpdateStmt = false ∧
    okStages.preprocessKeepsFlag ∧
    (seenOf okStages updateNode (sessionWorld false none)).length = 6 ∧
    ∀ p ∈ seenOf okStages updateNode (sessionWorld false none), p.1.isCounterInc = false →
      p.2.sessionVars.InUpdateStmt = true :=
  ⟨rfl, fun _ _ _ _ => rfl, by decide,
    (C19_stages_see_flag_set okStages (some ⟨"UPDATE t SET a = 1"⟩)
      (sessionWorld false none)).2.2.2.2.1 (fun _ _ _ _ => rfl)⟩

/-- C20: in a call of `Compile` on a node that is not an update statement, the
session handed to `Preprocess` carries the flag as it was before the call; when
`Preprocess` leaves the flag alone every stage is called in a session with that
flag, and when `Optimize` leaves it alone too the flag after `Compile` is the
flag before the call, on every exit. -/
theorem C20_flag_untouched_for_other_nodes (st : Stages) (node : ast.StmtNode) (w : World)
    (hU : node.isUpdateStmt = false) :
    (∀ n is c err, Event.Preprocess n is c err ∈ callsOf st node w →
      c.sessionVars.InUpdateStmt = w.ctx.sessionVars.InUpdateStmt) ∧
    (st.preprocessKeepsFlag →
      ∀ e ∈ callsOf st node w, ∀ c, e.session? = some c →
        c.sessionVars.InUpdateStmt = w.ctx.sessionVars.InUpdateStmt) ∧
    (st.preprocessKeepsFlag → st.optimizeKeepsFlag →
      (Compile st node w).2.ctx.sessionVars.InUpdateStmt =
        w.ctx.sessionVars.InUpdateStmt) := by
  have hf : (ctxAtPreprocess node w).sessionVars.InUpdateStmt =
      w.ctx.sessionVars.InUpdateStmt := by
    rw [ctxAtPreprocess_flag, hU]
    simp
  refine ⟨?_, ?_, ?_⟩
  · intro n is c err h
    rw [Compile_preprocess_ctx st node w n is c err h]
    exact hf
  · intro hP e he c hc
    rw [Compile_sessions st node w hP e he c hc]
    exact hf
  · intro hP hO
    cases hl : statementLabel node with
    | error p => simp [Compile, hl]
    | ok label =>
      obtain ⟨is, w1, pre, _, _, h3, _, h5⟩ := Compile_decompose st node w label hl
      rw [h5 hU, runStages_flag st node is w1 hP hO, h3]
      exact hf

/-- C20, witness: a select statement compiled with the flag set before the
call, by stages that change the session and leave the flag alone: the flag is
still set afterwards, and was set at every stage. -/
theorem C20_flag_untouched_for_other_nodes_witness :
    selectNode.isUpdateStmt = false ∧
    (sessionWorld true none).ctx.sessionVars.InUpdateStmt = true ∧
    (Compile sessionChangingStages selectNode (sessionWorld true none)).2.ctx.sessionVars.InUpdateStmt
      = true ∧
    ∀ e ∈ callsOf sessionChangingStages selectNode (sessionWorld true none), ∀ c,
      e.session? = some c → c.sessionVars.InUpdateStmt = true :=
  ⟨rfl, rfl,
    (C20_flag_untouched_for_other_nodes sessionChangingStages selectNode
      (sessionWorld true none) rfl).2.2 (fun _ _ _ _ => rfl) (fun _ _ _ _ => rfl),
    (C20_flag_untouched_for_other_nodes sessionChangingStages selectNode
      (sessionWorld true none) rfl).2.1 (fun _ _ _ _ => rfl)⟩

end executor
